import Mathlib

/-!
Verification development for the PyTorch dispatcher core:
the dispatch-key algebra (`c10/core/DispatchKey.h`) and the per-operator
kernel registry with its dispatch-table computation
(`aten/src/ATen/core/dispatch/OperatorEntry.cpp`).

Dispatch keys are embedded as their numeric enum codes (`Nat`), read off the
`DispatchKey` enum in `DispatchKey.h` (underlying type `uint16_t`, values all
below 2^8 so no wrap-around is possible in any cast appearing in the sources).
Backend components are embedded likewise (`uint8_t` codes 0..14).

`DispatchKeySet.h` / `DispatchKeySet.cpp` (the key-set constants, the alias
key sets, `getRuntimeDispatchKeySet`, `isIncludedInAlias`,
`getBackendKeySetFromAutograd`, `getAutogradKeyFromBackend`,
`isBackendDispatchKey`, `getDispatchTableIndexForDispatchKey`) are not part of
the sources; every definition standing in for them is modelled from the spec
and marked `Modelled from the spec:` in its doc comment.  Key sets are
embedded as lists of runtime key codes.
-/

namespace PTD

/-! ### DispatchKey enum codes (`c10/core/DispatchKey.h`) -/

namespace DK

def Undefined : Nat := 0
def Dense : Nat := 1
def FPGA : Nat := 2
def ORT : Nat := 3
def Vulkan : Nat := 4
def Metal : Nat := 5
def Quantized : Nat := 6
def CustomRNGKeyId : Nat := 7
def MkldnnCPU : Nat := 8
def Sparse : Nat := 9
def SparseCsrCPU : Nat := 10
def SparseCsrCUDA : Nat := 11
def NestedTensor : Nat := 12
def BackendSelect : Nat := 13
def Python : Nat := 14
def Fake : Nat := 15
def FuncTorchDynamicLayerBackMode : Nat := 16
def Functionalize : Nat := 17
def Named : Nat := 18
def Conjugate : Nat := 19
def Negative : Nat := 20
def ZeroTensor : Nat := 21
def ADInplaceOrView : Nat := 22
def AutogradOther : Nat := 23
def AutogradFunctionality : Nat := 24
def AutogradNestedTensor : Nat := 25
def Tracer : Nat := 26
def AutocastCPU : Nat := 27
def AutocastXPU : Nat := 28
def AutocastCUDA : Nat := 29
def FuncTorchBatched : Nat := 30
def FuncTorchVmapMode : Nat := 31
def Batched : Nat := 32
def VmapMode : Nat := 33
def FuncTorchGradWrapper : Nat := 34
def DeferredInit : Nat := 35
def PythonTLSSnapshot : Nat := 36
def FuncTorchDynamicLayerFrontMode : Nat := 37
def TESTING_ONLY_GenericWrapper : Nat := 38
def TESTING_ONLY_GenericMode : Nat := 39
def EndOfFunctionalityKeys : Nat := 40

def StartOfDenseBackends : Nat := 41
def CPU : Nat := 42
def CUDA : Nat := 43
def HIP : Nat := 44
def XLA : Nat := 45
def MPS : Nat := 46
def IPU : Nat := 47
def XPU : Nat := 48
def HPU : Nat := 49
def VE : Nat := 50
def Lazy : Nat := 51
def Meta : Nat := 52
def PrivateUse1 : Nat := 53
def PrivateUse2 : Nat := 54
def PrivateUse3 : Nat := 55
def EndOfDenseBackends : Nat := 55

def StartOfQuantizedBackends : Nat := 56
def QuantizedCPU : Nat := 57
def EndOfQuantizedBackends : Nat := 70

def StartOfSparseBackends : Nat := 71
def SparseCPU : Nat := 72
def EndOfSparseBackends : Nat := 85

def StartOfNestedTensorBackends : Nat := 86
def NestedTensorCPU : Nat := 87
def EndOfNestedTensorBackends : Nat := 100

def StartOfAutogradBackends : Nat := 101
def AutogradCPU : Nat := 102
def AutogradCUDA : Nat := 103
def AutogradXLA : Nat := 105
def AutogradMPS : Nat := 106
def AutogradIPU : Nat := 107
def AutogradXPU : Nat := 108
def AutogradHPU : Nat := 109
def AutogradLazy : Nat := 111
def AutogradMeta : Nat := 112
def AutogradPrivateUse1 : Nat := 113
def AutogradPrivateUse2 : Nat := 114
def AutogradPrivateUse3 : Nat := 115
def EndOfAutogradBackends : Nat := 115
def EndOfRuntimeBackendKeys : Nat := 115

def Autograd : Nat := 116
def CompositeImplicitAutograd : Nat := 117
def CompositeExplicitAutograd : Nat := 118
def CompositeExplicitAutogradNonFunctional : Nat := 119
def StartOfAliasKeys : Nat := 116
def EndOfAliasKeys : Nat := 119

end DK

/-! ### BackendComponent enum codes (`c10/core/DispatchKey.h`) -/

namespace BC

def InvalidBit : Nat := 0
def CPUBit : Nat := 1
def CUDABit : Nat := 2
def HIPBit : Nat := 3
def XLABit : Nat := 4
def MPSBit : Nat := 5
def IPUBit : Nat := 6
def XPUBit : Nat := 7
def HPUBit : Nat := 8
def VEBit : Nat := 9
def LazyBit : Nat := 10
def MetaBit : Nat := 11
def PrivateUse1Bit : Nat := 12
def PrivateUse2Bit : Nat := 13
def PrivateUse3Bit : Nat := 14
def EndOfBackendKeys : Nat := 14

end BC

/-- `isAliasDispatchKey` from `DispatchKey.h`. -/
def isAliasDispatchKey (k : Nat) : Bool :=
  DK.StartOfAliasKeys ≤ k && k ≤ DK.EndOfAliasKeys

/-- `isPerBackendFunctionalityKey` from `DispatchKey.h`. -/
def isPerBackendFunctionalityKey (k : Nat) : Bool :=
  k == DK.Dense || k == DK.Quantized || k == DK.Sparse ||
  k == DK.AutogradFunctionality || k == DK.NestedTensor

/-- `num_functionality_keys` from `DispatchKey.h` (the value of
`EndOfFunctionalityKeys`). -/
def num_functionality_keys : Nat := DK.EndOfFunctionalityKeys

/-- `num_backends` from `DispatchKey.h` (the value of
`BackendComponent::EndOfBackendKeys`). -/
def num_backends : Nat := BC.EndOfBackendKeys

/-- `toBackendComponent` from `DispatchKey.h`: extract the backend-component
code of a per-backend runtime key (range by range); anything outside the five
per-backend ranges maps to `InvalidBit`. -/
def toBackendComponent (k : Nat) : Nat :=
  if DK.StartOfDenseBackends ≤ k ∧ k ≤ DK.EndOfDenseBackends then
    k - DK.StartOfDenseBackends
  else if DK.StartOfQuantizedBackends ≤ k ∧ k ≤ DK.EndOfQuantizedBackends then
    k - DK.StartOfQuantizedBackends
  else if DK.StartOfSparseBackends ≤ k ∧ k ≤ DK.EndOfSparseBackends then
    k - DK.StartOfSparseBackends
  else if DK.StartOfNestedTensorBackends ≤ k ∧ k ≤ DK.EndOfNestedTensorBackends then
    k - DK.StartOfNestedTensorBackends
  else if DK.StartOfAutogradBackends ≤ k ∧ k ≤ DK.EndOfAutogradBackends then
    k - DK.StartOfAutogradBackends
  else
    BC.InvalidBit

/-- `toFunctionalityKey` from `DispatchKey.h`. -/
def toFunctionalityKey (k : Nat) : Nat :=
  if k ≤ DK.EndOfFunctionalityKeys then k
  else if k ≤ DK.EndOfDenseBackends then DK.Dense
  else if k ≤ DK.EndOfQuantizedBackends then DK.Quantized
  else if k ≤ DK.EndOfSparseBackends then DK.Sparse
  else if k ≤ DK.EndOfNestedTensorBackends then DK.NestedTensor
  else if k ≤ DK.EndOfAutogradBackends then DK.AutogradFunctionality
  else DK.Undefined

/-- `toRuntimePerBackendFunctionalityKey` from `DispatchKey.h`: recompose a
(per-backend functionality, backend component) pair into the runtime key. -/
def toRuntimePerBackendFunctionalityKey (functionality_k : Nat) (backend_k : Nat) : Nat :=
  if functionality_k = DK.Dense then DK.StartOfDenseBackends + backend_k
  else if functionality_k = DK.Sparse then DK.StartOfSparseBackends + backend_k
  else if functionality_k = DK.Quantized then DK.StartOfQuantizedBackends + backend_k
  else if functionality_k = DK.NestedTensor then DK.StartOfNestedTensorBackends + backend_k
  else if functionality_k = DK.AutogradFunctionality then DK.StartOfAutogradBackends + backend_k
  else DK.Undefined

/-- A concrete per-backend runtime dispatch key: one lying strictly inside the
Dense, Quantized, Sparse, NestedTensor or Autograd per-backend range (the
`StartOf...Backends` enumerators themselves are markers, with backend
component `InvalidBit`). -/
def isPerBackendRuntimeKey (k : Nat) : Prop :=
  (DK.StartOfDenseBackends < k ∧ k ≤ DK.EndOfDenseBackends) ∨
  (DK.StartOfQuantizedBackends < k ∧ k ≤ DK.EndOfQuantizedBackends) ∨
  (DK.StartOfSparseBackends < k ∧ k ≤ DK.EndOfSparseBackends) ∨
  (DK.StartOfNestedTensorBackends < k ∧ k ≤ DK.EndOfNestedTensorBackends) ∨
  (DK.StartOfAutogradBackends < k ∧ k ≤ DK.EndOfAutogradBackends)

instance (k : Nat) : Decidable (isPerBackendRuntimeKey k) := by
  unfold isPerBackendRuntimeKey; infer_instance

/-! ### Key sets

These stand in for `DispatchKeySet.h` / `DispatchKeySet.cpp`, which are not
part of the sources.  A key set is a list of key codes; only concrete runtime
keys are members (alias keys and the per-backend functionality markers are
never elements of a key set). -/

/-- The concrete per-backend instances of the per-backend range starting at
marker `start`: `start + 1 .. start + num_backends`. -/
def instancesFrom (start : Nat) : List Nat :=
  (List.range num_backends).map (fun b => start + 1 + b)

def denseKeys : List Nat := instancesFrom DK.StartOfDenseBackends

def quantizedKeys : List Nat := instancesFrom DK.StartOfQuantizedBackends

def sparseKeys : List Nat := instancesFrom DK.StartOfSparseBackends

def nestedTensorKeys : List Nat := instancesFrom DK.StartOfNestedTensorBackends

def autogradPerBackendKeys : List Nat := instancesFrom DK.StartOfAutogradBackends

/-- The non-customizable backend functionality keys (`DispatchKey.h` calls
every functionality key up to `SparseCsrCUDA`, other than the per-backend
markers, a "non-customizable backend"). -/
def ncBackendFunctionalityKeys : List Nat :=
  [DK.FPGA, DK.ORT, DK.Vulkan, DK.Metal, DK.CustomRNGKeyId, DK.MkldnnCPU,
   DK.SparseCsrCPU, DK.SparseCsrCUDA]

/-- Modelled from the spec (§4.3 rule 3): the runtime keys covered by the
"explicit-backend" alias `CompositeExplicitAutograd` — every backend key
(all per-backend compute instances plus the non-customizable backends). -/
def backendKeySet : List Nat :=
  ncBackendFunctionalityKeys ++ denseKeys ++ quantizedKeys ++ sparseKeys ++ nestedTensorKeys

/-- Modelled from the spec (§4.3 rule 2): the runtime keys covered by
`CompositeExplicitAutogradNonFunctional` — all backends in inference except
the "functional" backends (LazyTensor / XLA). -/
def nonFunctionalBackendKeySet : List Nat :=
  backendKeySet.filter
    (fun k => toBackendComponent k != BC.XLABit && toBackendComponent k != BC.LazyBit)

/-- Modelled from the spec (§4.3 rule 5): the runtime keys covered by the
"generic autograd" alias — the per-backend autograd instances plus the
catch-all `AutogradOther` and `AutogradNestedTensor`. -/
def autogradKeySet : List Nat :=
  [DK.AutogradOther, DK.AutogradNestedTensor] ++ autogradPerBackendKeys

/-- Modelled from the spec (§4.3 rule 4): the runtime keys covered by the
"implicit-backend" composite alias `CompositeImplicitAutograd` — both the
backend keys and the autograd keys. -/
def mathKeySet : List Nat :=
  backendKeySet ++ autogradKeySet

/-- The four compute instances of backend component `b` (the functionalities
sharing that backend: Dense, Quantized, Sparse, NestedTensor). -/
def columnKeys (b : Nat) : List Nat :=
  [DK.StartOfDenseBackends + b, DK.StartOfQuantizedBackends + b,
   DK.StartOfSparseBackends + b, DK.StartOfNestedTensorBackends + b]

/-- Modelled from the spec: `autogradother_backends` from `DispatchKeySet.h`
(not in the sources) — the keys of every backend that funnels into the
catch-all autograd key `AutogradOther`: the non-customizable backend
functionality keys plus the per-backend instances of the two backend
components without a dedicated autograd key (HIP and VE, whose autograd
enumerators `_AutogradHIP` / `_AutogradVE` are reserved-but-unused in
`DispatchKey.h`). -/
def autogradother_backends : List Nat :=
  ncBackendFunctionalityKeys ++ columnKeys BC.HIPBit ++ columnKeys BC.VEBit

/-- The backend components that own a dedicated autograd key (every backend
bit except HIP and VE, cf. the enumerator names in `DispatchKey.h`). -/
def dedicatedBackendBits : List Nat :=
  [BC.CPUBit, BC.CUDABit, BC.XLABit, BC.MPSBit, BC.IPUBit, BC.XPUBit,
   BC.HPUBit, BC.LazyBit, BC.MetaBit, BC.PrivateUse1Bit, BC.PrivateUse2Bit,
   BC.PrivateUse3Bit]

/-- Modelled from the spec: `getAutogradKeyFromBackend` (declared in
`DispatchKey.h`, defined in the missing `DispatchKeySet.cpp`): a backend
component's dedicated autograd key, or the catch-all `AutogradOther` for the
backends without one. -/
def getAutogradKeyFromBackend (b : Nat) : Nat :=
  if dedicatedBackendBits.contains b then DK.StartOfAutogradBackends + b
  else DK.AutogradOther

/-- The dedicated per-backend autograd runtime keys. -/
def dedicatedAutogradKeys : List Nat :=
  dedicatedBackendBits.map (fun b => DK.StartOfAutogradBackends + b)

/-- Modelled from the spec (§4.3 rule 4(b): "K's backend (or any
functionality sharing that backend)"): `getBackendKeySetFromAutograd` from
the missing `DispatchKeySet.cpp`.  For a dedicated per-backend autograd key,
the compute instances of its backend; for `AutogradOther`, the keys of every
backend funneling into it; empty for every other key. -/
def getBackendKeySetFromAutograd (k : Nat) : List Nat :=
  if k = DK.AutogradOther then autogradother_backends
  else if dedicatedAutogradKeys.contains k then columnKeys (k - DK.StartOfAutogradBackends)
  else []

/-- Modelled from the spec (§4.1, §4.3): `getRuntimeDispatchKeySet` from the
missing `DispatchKeySet.cpp` — the runtime keys denoted by a key: an alias
key denotes its implied key set, a per-backend functionality key denotes its
cross product with all backends, any other key denotes itself. -/
def getRuntimeDispatchKeySet (k : Nat) : List Nat :=
  if k = DK.Autograd then autogradKeySet
  else if k = DK.CompositeImplicitAutograd then mathKeySet
  else if k = DK.CompositeExplicitAutograd then backendKeySet
  else if k = DK.CompositeExplicitAutogradNonFunctional then nonFunctionalBackendKeySet
  else if k = DK.Dense then denseKeys
  else if k = DK.Quantized then quantizedKeys
  else if k = DK.Sparse then sparseKeys
  else if k = DK.NestedTensor then nestedTensorKeys
  else if k = DK.AutogradFunctionality then autogradPerBackendKeys
  else [k]

/-- Modelled from the spec: `isIncludedInAlias` from the missing
`DispatchKeySet.h` — whether runtime key `k` belongs to the implied key set
of `alias` (`Undefined` belongs to no alias). -/
def isIncludedInAlias (k alias_key : Nat) : Bool :=
  k != DK.Undefined && (getRuntimeDispatchKeySet alias_key).contains k

/-- Modelled from the spec: `isBackendDispatchKey` from the missing
`DispatchKeySet.cpp` — the concrete backend keys (whose registration must
also refresh the backend's derived autograd key, §4.3). -/
def isBackendDispatchKey (k : Nat) : Bool :=
  backendKeySet.contains k

/-- Modelled from the spec: the runtime dispatch keys other than `Undefined`
(the iteration `DispatchKeySet(DispatchKeySet::FULL)` from the missing
`DispatchKeySet.h`): every non-per-backend functionality key plus every
concrete per-backend instance. -/
def runtimeKeysList : List Nat :=
  ((List.range DK.EndOfFunctionalityKeys).filter
    (fun k => k != DK.Undefined && !isPerBackendFunctionalityKey k))
  ++ denseKeys ++ quantizedKeys ++ sparseKeys ++ nestedTensorKeys ++ autogradPerBackendKeys

/-- Modelled from the spec: `getDispatchTableIndexForDispatchKey` from the
missing `DispatchKeySet.h`, as a validity predicate.  The dispatch table is
modelled as indexed by the key code itself; a key has a table slot exactly
when it is `Undefined` or a runtime key (on non-mobile builds), matching
`dispatch_ix >= 0`. -/
def hasDispatchTableIndex (k : Nat) : Bool :=
  k == DK.Undefined || runtimeKeysList.contains k

/-- The keys owning a dispatch-table slot: `Undefined` plus the runtime keys. -/
def tableKeysList : List Nat :=
  DK.Undefined :: runtimeKeysList

/-! ### Operator registry entry data model (`OperatorEntry.h` / `OperatorEntry.cpp`)

Kernel functions, function schemas and C++ signatures are opaque to the
dispatch logic; each is embedded as a numeric code.  An `AnnotatedKernel`
additionally carries `regId`, the identity of its list node: the C++ returns
a `std::list` iterator from `registerKernel` and later erases exactly that
node, which we model by tagging each inserted node with a fresh id. -/

structure AnnotatedKernel where
  kid : Nat
  inferredSchema : Option Nat
  regId : Nat
deriving DecidableEq, Repr

/-- A dispatch-table slot value: the copied kernel function of a registration
or of a backend fallback (`kern`), the distinguished ambiguous marker
(`ambiguousAutogradOtherKernel`), or the invalid missing marker
(`missingKernel`, also the default-constructed slot). -/
inductive TableEntry where
  | missing
  | ambiguous
  | kern (kid : Nat)
deriving DecidableEq, Repr

/-- `kernels_`: dispatch key → ordered list of annotated kernels, as an
association list (`ska::flat_hash_map` in C++; iteration order of the map is
irrelevant to every lookup, cf. `hasKernelForAnyDispatchKey_eq_keyset`). -/
abbrev KMap := List (Nat × List AnnotatedKernel)

/-- `kernels_.find(k)`. -/
def kmapFind (m : KMap) (k : Nat) : Option (List AnnotatedKernel) :=
  match m with
  | [] => none
  | kv :: rest => if kv.1 = k then some kv.2 else kmapFind rest k

/-- Replace the value of the (first) entry with key `k`. -/
def kmapSet (m : KMap) (k : Nat) (v : List AnnotatedKernel) : KMap :=
  match m with
  | [] => []
  | kv :: rest => if kv.1 = k then (k, v) :: rest else kv :: kmapSet rest k v

/-- `kernels_.erase(found)`: remove the (first) entry with key `k`. -/
def kmapErase (m : KMap) (k : Nat) : KMap :=
  match m with
  | [] => []
  | kv :: rest => if kv.1 = k then rest else kv :: kmapErase rest k

/-- `kernels_[k].emplace_front(a)` (`operator[]` default-constructs the list
when the key is absent). -/
def kmapEmplaceFront (m : KMap) (k : Nat) (a : AnnotatedKernel) : KMap :=
  match kmapFind m k with
  | some l => kmapSet m k (a :: l)
  | none => (k, [a]) :: m

/-- `std::list::erase(it)`: drop the node with the given identity. -/
def eraseByRegId (l : List AnnotatedKernel) (tok : Nat) : List AnnotatedKernel :=
  match l with
  | [] => []
  | a :: rest => if a.regId = tok then rest else a :: eraseByRegId rest tok

/-- The process-wide `backendFallbackKernels_` of the Dispatcher, indexed by
dispatch key (`some kid` exactly when the stored kernel `isValid()`). -/
abbrev Fallback := Nat → Option Nat

/-- The `OperatorEntry` state: the kernel map, the dispatch table (a total
function over key codes; only slots with a dispatch-table index are ever
written), the registered schema, the recorded C++ signature
(`cpp_signature_`), and the fresh-id counter backing `regId`. -/
structure OperatorEntry where
  kernels : KMap
  table : Nat → TableEntry
  schema : Option Nat
  cppSig : Option Nat
  nextId : Nat

/-- `OperatorEntry::getKernelForDispatchKey`: the front (active) kernel
directly registered to `dispatch_key`, if any.  (The C++ asserts the found
list is non-empty; an empty list yields `none` here.) -/
def getKernelForDispatchKey (m : KMap) (dispatch_key : Nat) : Option AnnotatedKernel :=
  (kmapFind m dispatch_key).bind List.head?

/-- `OperatorEntry::hasKernelForDispatchKey`: a direct map entry for `k`
exists.  (The C++ iterates the map comparing keys.) -/
def hasKernelForDispatchKey (m : KMap) (k : Nat) : Bool :=
  m.any (fun kv => kv.1 == k)

/-- `OperatorEntry::hasKernelForAnyDispatchKey`: some non-alias key of the
map lies in the key set `ks`. -/
def hasKernelForAnyDispatchKey (m : KMap) (ks : List Nat) : Bool :=
  m.any (fun kv => !isAliasDispatchKey kv.1 && ks.contains kv.1)

/-- Rules 2.4 and 3/4 of `computeDispatchTableEntryWithDebug` (the shared
fall-through tail): the `Autograd` alias kernel for autograd keys, then the
backend fallback, then the missing marker. -/
def computeTailEntry (fb : Fallback) (m : KMap) (dispatch_key : Nat) : TableEntry × String :=
  match (if isIncludedInAlias dispatch_key DK.Autograd = true then
          getKernelForDispatchKey m DK.Autograd else none) with
  | some autograd_registration => (.kern autograd_registration.kid, "autograd kernel")
  | none =>
    if hasDispatchTableIndex dispatch_key = false then
      (.missing, "backend fallback not registered on mobile")
    else
      match fb dispatch_key with
      | some kid => (.kern kid, "backend fallback")
      | none => (.missing, "missing")

/-- `OperatorEntry::computeDispatchTableEntryWithDebug`: the precedence
computation over the current kernel map and fallback table.  Structure
mirrors the C++: (1) direct registration; (2.1)
`CompositeExplicitAutogradNonFunctional`; (2.2) `CompositeExplicitAutograd`;
(2.3) `CompositeImplicitAutograd` with the `AutogradOther` ambiguity check
and the backend-kernel check; (2.4) `Autograd`; (3) backend fallback;
(4) missing. -/
def computeDispatchTableEntryWithDebug (fb : Fallback) (m : KMap) (dispatch_key : Nat) :
    TableEntry × String :=
  match getKernelForDispatchKey m dispatch_key with
  | some direct_registration => (.kern direct_registration.kid, "kernel")
  | none =>
  match (if dispatch_key = DK.Undefined ∨
            isIncludedInAlias dispatch_key DK.CompositeExplicitAutogradNonFunctional = true then
          getKernelForDispatchKey m DK.CompositeExplicitAutogradNonFunctional else none) with
  | some default_backend_registration => (.kern default_backend_registration.kid, "default backend kernel")
  | none =>
  match (if dispatch_key = DK.Undefined ∨
            isIncludedInAlias dispatch_key DK.CompositeExplicitAutograd = true then
          getKernelForDispatchKey m DK.CompositeExplicitAutograd else none) with
  | some default_backend_registration => (.kern default_backend_registration.kid, "default backend kernel")
  | none =>
    let has_backend_kernel :=
      hasKernelForAnyDispatchKey m (getBackendKeySetFromAutograd dispatch_key) ||
      hasKernelForDispatchKey m DK.CompositeExplicitAutograd
    match (if dispatch_key = DK.Undefined ∨
              isIncludedInAlias dispatch_key DK.CompositeImplicitAutograd = true then
            getKernelForDispatchKey m DK.CompositeImplicitAutograd else none) with
    | some math_registration =>
      if dispatch_key = DK.AutogradOther ∧
          hasKernelForAnyDispatchKey m autogradother_backends = true then
        (.ambiguous, "ambiguous autogradother")
      else if has_backend_kernel = false then
        (.kern math_registration.kid, "math kernel")
      else computeTailEntry fb m dispatch_key
    | none => computeTailEntry fb m dispatch_key

/-- `OperatorEntry::computeDispatchTableEntry`. -/
def computeDispatchTableEntry (fb : Fallback) (m : KMap) (dispatch_key : Nat) : TableEntry :=
  (computeDispatchTableEntryWithDebug fb m dispatch_key).1

/-! ### Dispatch-table updates (`OperatorEntry.cpp`) -/

/-- Overwrite one table slot. -/
def updSlot (t : Nat → TableEntry) (k : Nat) (v : TableEntry) : Nat → TableEntry :=
  fun j => if j = k then v else t j

/-- `OperatorEntry::updateDispatchTableEntry_`: synchronize the slot of one
dispatch key with the current registration state, skipping keys with no
dispatch-table index.  (The C++ also refreshes the key extractor's
fallthrough bitset, which is outside the modelled scope.) -/
def updateDispatchTableEntry_ (fb : Fallback) (s : OperatorEntry) (dispatch_key : Nat) :
    OperatorEntry :=
  if hasDispatchTableIndex dispatch_key = false then s
  else
    { s with
      table := updSlot s.table dispatch_key (computeDispatchTableEntry fb s.kernels dispatch_key) }

/-- `OperatorEntry::updateDispatchTable_`: refresh the slots of
`dispatch_key` and its associated keys — `Undefined` stands alone; otherwise
every key of the runtime key set, plus the `Undefined` slot for the three
composite aliases, plus the backend's derived autograd key for concrete
backend keys. -/
def updateDispatchTable_ (fb : Fallback) (s : OperatorEntry) (dispatch_key : Nat) :
    OperatorEntry :=
  if dispatch_key = DK.Undefined then updateDispatchTableEntry_ fb s dispatch_key
  else
    let s1 := (getRuntimeDispatchKeySet dispatch_key).foldl (updateDispatchTableEntry_ fb) s
    let s2 :=
      if dispatch_key = DK.CompositeImplicitAutograd ∨
         dispatch_key = DK.CompositeExplicitAutograd ∨
         dispatch_key = DK.CompositeExplicitAutogradNonFunctional then
        updateDispatchTableEntry_ fb s1 DK.Undefined
      else s1
    if isBackendDispatchKey dispatch_key = true then
      updateDispatchTableEntry_ fb s2 (getAutogradKeyFromBackend (toBackendComponent dispatch_key))
    else s2

/-- `OperatorEntry::updateDispatchTableFull_`: update the `Undefined` slot and
then every runtime key, each through the per-key update mechanism. -/
def updateDispatchTableFull_ (fb : Fallback) (s : OperatorEntry) : OperatorEntry :=
  runtimeKeysList.foldl (updateDispatchTable_ fb) (updateDispatchTable_ fb s DK.Undefined)

/-- The slots written by `updateDispatchTable_ fb s dispatch_key`. -/
def refreshList (dispatch_key : Nat) : List Nat :=
  if dispatch_key = DK.Undefined then [DK.Undefined]
  else
    getRuntimeDispatchKeySet dispatch_key
    ++ (if dispatch_key = DK.CompositeImplicitAutograd ∨
           dispatch_key = DK.CompositeExplicitAutograd ∨
           dispatch_key = DK.CompositeExplicitAutogradNonFunctional then
          [DK.Undefined] else [])
    ++ (if isBackendDispatchKey dispatch_key = true then
          [getAutogradKeyFromBackend (toBackendComponent dispatch_key)] else [])

/-! ### Registration operations (`OperatorEntry.cpp`) -/

/-- The registration-time failures (`TORCH_CHECK` / `TORCH_INTERNAL_ASSERT`):
signature mismatch, schema mismatch, already-registered schema, and the
deregistration assert. -/
inductive RegistrationError where
  | signatureMismatch
  | schemaMismatch
  | schemaAlreadyRegistered
deriving DecidableEq, Repr

/-- `findSchemaDifferences` (from `function_schema_inl.h`, not in the
sources). Modelled from the spec: schemas are opaque codes and a difference
is reported exactly when the codes differ. -/
def findSchemaDifferences (from_def inferred : Nat) : Option String :=
  if from_def = inferred then none else some "schema difference"

/-- `OperatorEntry::registerSchema`: asserts no schema is registered yet,
cross-checks the new schema against every kernel's inferred schema, and only
then stores it.  Returns the possibly-raised error together with the state at
the point the error was raised (all checks precede the mutation).  (The
dispatch-key extractor and tags are outside the modelled scope.) -/
def registerSchema (s : OperatorEntry) (schema : Nat) :
    Option RegistrationError × OperatorEntry :=
  if s.schema.isSome then (some .schemaAlreadyRegistered, s)
  else
    match s.kernels.findSome? (fun kv => kv.2.findSome? (fun j =>
            match j.inferredSchema with
            | some inferred => findSchemaDifferences schema inferred
            | none => none)) with
    | some _ => (some .schemaMismatch, s)
    | none => (none, { s with schema := some schema })

/-- `OperatorEntry::deregisterSchema`. -/
def deregisterSchema (s : OperatorEntry) : OperatorEntry :=
  { s with schema := none }

/-- Steps 3-4 of `OperatorEntry::registerKernel` (after the signature and
schema cross-checks): redirect catch-all registrations to
`CompositeImplicitAutograd`, push the kernel at the front of the key's list,
and re-establish the dispatch table (per-key update for an explicit key, full
update for a catch-all registration).  Returns the token (`regId`) of the
inserted node. -/
def registerKernelInsert (fb : Fallback) (s : OperatorEntry) (dispatch_key : Option Nat)
    (kid : Nat) (inferred_function_schema : Option Nat) :
    Option RegistrationError × OperatorEntry × Option Nat :=
  let a : AnnotatedKernel := ⟨kid, inferred_function_schema, s.nextId⟩
  let dk := match dispatch_key with
    | some k => k
    | none => DK.CompositeImplicitAutograd
  let s1 : OperatorEntry :=
    { s with kernels := kmapEmplaceFront s.kernels dk a, nextId := s.nextId + 1 }
  let s2 := match dispatch_key with
    | some k => updateDispatchTable_ fb s1 k
    | none => updateDispatchTableFull_ fb s1
  (none, s2, some a.regId)

/-- Step 2 of `OperatorEntry::registerKernel`: cross-check the kernel's
inferred schema against the registered schema (`checkSchema` throws on any
difference). -/
def registerKernelChecked (fb : Fallback) (s : OperatorEntry) (dispatch_key : Option Nat)
    (kid : Nat) (inferred_function_schema : Option Nat) :
    Option RegistrationError × OperatorEntry × Option Nat :=
  match s.schema, inferred_function_schema with
  | some schema, some inferred =>
    if (findSchemaDifferences schema inferred).isSome then (some .schemaMismatch, s, none)
    else registerKernelInsert fb s dispatch_key kid inferred_function_schema
  | _, _ => registerKernelInsert fb s dispatch_key kid inferred_function_schema

/-- `OperatorEntry::registerKernel`: first the C++ signature cross-check
(`cpp_signature_` is recorded on first sight and never cleared by kernel
deregistration; a mismatch with the recorded signature throws before any
mutation), then the schema cross-check, then the insertion and table update.
The returned triple is (raised error, state when returning or throwing,
returned token). -/
def registerKernel (fb : Fallback) (s : OperatorEntry) (dispatch_key : Option Nat)
    (kid : Nat) (cpp_signature : Option Nat) (inferred_function_schema : Option Nat) :
    Option RegistrationError × OperatorEntry × Option Nat :=
  match cpp_signature with
  | some cs =>
    match s.cppSig with
    | some recorded =>
      if cs ≠ recorded then (some .signatureMismatch, s, none)
      else registerKernelChecked fb s dispatch_key kid inferred_function_schema
    | none =>
      registerKernelChecked fb { s with cppSig := some cs } dispatch_key kid
        inferred_function_schema
  | none => registerKernelChecked fb s dispatch_key kid inferred_function_schema

/-- `OperatorEntry::deregisterKernel_`: redirect catch-all deregistrations to
`CompositeImplicitAutograd`, assert the key is present (`none` models the
`TORCH_INTERNAL_ASSERT` failure), erase the node the token points at, drop
the key when its list becomes empty, and refresh the table for the key. -/
def deregisterKernel_ (fb : Fallback) (s : OperatorEntry) (dispatch_key : Option Nat)
    (tok : Nat) : Option OperatorEntry :=
  let dk := match dispatch_key with
    | some k => k
    | none => DK.CompositeImplicitAutograd
  match kmapFind s.kernels dk with
  | none => none
  | some l =>
    let l2 := eraseByRegId l tok
    let kernels2 := if l2.isEmpty then kmapErase s.kernels dk else kmapSet s.kernels dk l2
    some (updateDispatchTable_ fb { s with kernels := kernels2 } dk)

/-- `OperatorEntry::updateFallback`. -/
def updateFallback (fb : Fallback) (s : OperatorEntry) (dispatch_key : Nat) : OperatorEntry :=
  updateDispatchTable_ fb s dispatch_key

/-- The `OperatorEntry` constructor: empty registration state, default
(missing) table slots, then a full table update to pick up backend fallbacks
registered before the entry was created. -/
def mkOperatorEntry (fb : Fallback) : OperatorEntry :=
  updateDispatchTableFull_ fb
    { kernels := [], table := fun _ => .missing, schema := none, cppSig := none, nextId := 0 }

/-! ### Registry histories

A step relation over the combined (fallback table, operator entry) state,
covering the four mutating calls of the claims: kernel registration, kernel
deregistration, a backend-fallback change (the Dispatcher updates its
fallback slot and broadcasts `updateFallback`), and schema registration. -/

inductive DOp where
  | reg (dispatch_key : Option Nat) (kid : Nat) (cpp_signature : Option Nat)
      (inferred_function_schema : Option Nat)
  | dereg (dispatch_key : Option Nat) (tok : Nat)
  | fallb (dispatch_key : Nat) (v : Option Nat)
  | regSchema (schema : Nat)

/-- Modelled from the spec (§4.4, §6): `Dispatcher::registerFallback` /
`deregisterFallback` (from the missing `Dispatcher.cpp`) update the
process-wide fallback slot for a key and broadcast `updateFallback`. -/
def setBackendFallback (fb : Fallback) (k : Nat) (v : Option Nat) : Fallback :=
  fun j => if j = k then v else fb j

/-- One mutating call.  A call that throws (signature/schema mismatch, or a
deregistration assert) leaves the published state as at the throw. -/
def stepOp (st : Fallback × OperatorEntry) (op : DOp) : Fallback × OperatorEntry :=
  match op with
  | .reg dk kid cs inf => (st.1, (registerKernel st.1 st.2 dk kid cs inf).2.1)
  | .dereg dk tok => (st.1, (deregisterKernel_ st.1 st.2 dk tok).getD st.2)
  | .fallb k v =>
    let fb2 := setBackendFallback st.1 k v
    (fb2, updateFallback fb2 st.2 k)
  | .regSchema schema => (st.1, (registerSchema st.2 schema).2)

/-- The states reachable from a freshly constructed entry by mutating calls
satisfying a side condition `ok`. -/
inductive ReachableUnder (ok : Fallback × OperatorEntry → DOp → Prop) :
    Fallback × OperatorEntry → Prop where
  | init (fb : Fallback) : ReachableUnder ok (fb, mkOperatorEntry fb)
  | step {st : Fallback × OperatorEntry} {op : DOp} :
      ReachableUnder ok st → ok st op → ReachableUnder ok (stepOp st op)

/-- The consistency invariant of `OperatorEntry::checkInvariants`: every
dispatch-table slot (the runtime keys and the `Undefined` slot) equals its
from-scratch recomputation. -/
def TableConsistent (st : Fallback × OperatorEntry) : Prop :=
  ∀ j, hasDispatchTableIndex j = true →
    st.2.table j = computeDispatchTableEntry st.1 st.2.kernels j

/-- Histories that never pass `DispatchKey::Undefined` explicitly to
`registerKernel` (a catch-all registration is expressed by the absent key). -/
def noExplicitUndefined : Fallback × OperatorEntry → DOp → Prop :=
  fun _ op =>
    match op with
    | .reg dk _ _ _ => dk ≠ some DK.Undefined
    | _ => True

/-- The kernel-map shape invariant of the claim: no entry under the
`Undefined` key and no key mapped to an empty kernel list. -/
def KernelMapWF (m : KMap) : Prop :=
  ∀ kv ∈ m, kv.1 ≠ DK.Undefined ∧ kv.2 ≠ ([] : List AnnotatedKernel)

/-- The amendment side condition: no (de)registration targets the
`CompositeExplicitAutograd` alias while a `CompositeImplicitAutograd` kernel
is registered. -/
def ciaSafe (st : Fallback × OperatorEntry) (op : DOp) : Prop :=
  match op with
  | .reg (some dk) _ _ _ =>
      dk = DK.CompositeExplicitAutograd →
        getKernelForDispatchKey st.2.kernels DK.CompositeImplicitAutograd = none
  | .dereg (some dk) _ =>
      dk = DK.CompositeExplicitAutograd →
        getKernelForDispatchKey st.2.kernels DK.CompositeImplicitAutograd = none
  | _ => True

/-- The empty fallback table (no backend fallback registered). -/
def fbEmpty : Fallback := fun _ => none

/-- Register a `CompositeImplicitAutograd` kernel, then a
`CompositeExplicitAutograd` kernel: the per-key update of the latter does not
refresh the autograd slots, whose computed entry nevertheless changed through
the `has_backend_kernel` check. -/
def c2CounterState : Fallback × OperatorEntry :=
  stepOp (stepOp (fbEmpty, mkOperatorEntry fbEmpty)
      (DOp.reg (some DK.CompositeImplicitAutograd) 1 none none))
    (DOp.reg (some DK.CompositeExplicitAutograd) 2 none none)

/-- First applicable result of an ordered rule list. -/
def firstSome : List (Option (TableEntry × String)) → Option (TableEntry × String)
  | [] => none
  | o :: rest =>
    match o with
    | some r => some r
    | none => firstSome rest

/-- The seven precedence rules in the order the spec lists them, each
`some` exactly when applicable to runtime key `K`: (1) direct registration;
(2) `CompositeExplicitAutogradNonFunctional` when `K` is `Undefined` or in
that alias's key set; (3) `CompositeExplicitAutograd`, same condition;
(4) `CompositeImplicitAutograd`, same condition, subject to the
`AutogradOther` ambiguity exception and the backend-kernel exception;
(5) `Autograd` when `K` is in its key set; (6) the backend fallback for `K`;
rule 7 (the missing marker) is the default of `dispatchSpec`. -/
def precedenceRules (fb : Fallback) (m : KMap) (K : Nat) :
    List (Option (TableEntry × String)) :=
  [ (getKernelForDispatchKey m K).map (fun a => (.kern a.kid, "kernel")),
    (if K = DK.Undefined ∨ isIncludedInAlias K DK.CompositeExplicitAutogradNonFunctional = true
     then (getKernelForDispatchKey m DK.CompositeExplicitAutogradNonFunctional).map
        (fun a => (.kern a.kid, "default backend kernel"))
     else none),
    (if K = DK.Undefined ∨ isIncludedInAlias K DK.CompositeExplicitAutograd = true
     then (getKernelForDispatchKey m DK.CompositeExplicitAutograd).map
        (fun a => (.kern a.kid, "default backend kernel"))
     else none),
    (if K = DK.Undefined ∨ isIncludedInAlias K DK.CompositeImplicitAutograd = true
     then
      match getKernelForDispatchKey m DK.CompositeImplicitAutograd with
      | some math_registration =>
        if K = DK.AutogradOther ∧ hasKernelForAnyDispatchKey m autogradother_backends = true then
          some (.ambiguous, "ambiguous autogradother")
        else if (hasKernelForAnyDispatchKey m (getBackendKeySetFromAutograd K) ||
            hasKernelForDispatchKey m DK.CompositeExplicitAutograd) = false then
          some (.kern math_registration.kid, "math kernel")
        else none
      | none => none
     else none),
    (if isIncludedInAlias K DK.Autograd = true
     then (getKernelForDispatchKey m DK.Autograd).map (fun a => (.kern a.kid, "autograd kernel"))
     else none),
    (fb K).map (fun kid => (.kern kid, "backend fallback")) ]

/-- The claim's reading of the precedence algorithm: the first applicable
rule wins; with no applicable rule the missing marker is the result. -/
def dispatchSpec (fb : Fallback) (m : KMap) (K : Nat) : TableEntry × String :=
  (firstSome (precedenceRules fb m K)).getD (.missing, "missing")

/-! ### Key decomposition and recomposition (claim C8) -/

theorem roundtrip_below_120 :
    ∀ k, k < 120 → isPerBackendRuntimeKey k →
      toRuntimePerBackendFunctionalityKey (toFunctionalityKey k) (toBackendComponent k) = k := by
  decide

theorem totality_below_120 :
    ∀ j, j < 120 →
      toFunctionalityKey j ≤ DK.EndOfFunctionalityKeys ∧
      toBackendComponent j ≤ BC.EndOfBackendKeys := by
  decide

theorem perBackendRuntimeKey_lt_120 (k : Nat) (h : isPerBackendRuntimeKey k) : k < 120 := by
  rcases h with h | h | h | h | h <;>
    simp [DK.EndOfDenseBackends, DK.EndOfQuantizedBackends, DK.EndOfSparseBackends,
      DK.EndOfNestedTensorBackends, DK.EndOfAutogradBackends] at h <;> omega

/-- **C8** For every concrete per-backend runtime dispatch key `k` (one lying
in the Dense, Quantized, Sparse, NestedTensor or Autograd backend ranges),
decomposing it with `toFunctionalityKey` and `toBackendComponent` and
recomposing with `toRuntimePerBackendFunctionalityKey` yields `k` again;
moreover the three functions are total over the enum's integer range, with
decompositions landing in the functionality / backend ranges. -/
theorem c8_key_decompose_recompose (k : Nat) (h : isPerBackendRuntimeKey k) :
    toRuntimePerBackendFunctionalityKey (toFunctionalityKey k) (toBackendComponent k) = k ∧
    (∀ j, j ≤ DK.EndOfAliasKeys →
      toFunctionalityKey j ≤ DK.EndOfFunctionalityKeys ∧
      toBackendComponent j ≤ BC.EndOfBackendKeys) := by
  refine ⟨roundtrip_below_120 k (perBackendRuntimeKey_lt_120 k h) h, ?_⟩
  intro j hj
  have hj' : j < 120 := by
    have : DK.EndOfAliasKeys < 120 := by decide
    omega
  exact totality_below_120 j hj'

theorem c8_key_decompose_recompose_witness :
    isPerBackendRuntimeKey DK.SparseCPU ∧
    toRuntimePerBackendFunctionalityKey (toFunctionalityKey DK.SparseCPU)
      (toBackendComponent DK.SparseCPU) = DK.SparseCPU :=
  ⟨by decide, (c8_key_decompose_recompose DK.SparseCPU (by decide)).1⟩

theorem hasDispatchTableIndex_iff_mem (k : Nat) :
    hasDispatchTableIndex k = true ↔ k ∈ tableKeysList := by
  simp [hasDispatchTableIndex, tableKeysList, DK.Undefined]

/-! ### Association-list lemmas -/

theorem bool_eq_of_iff {a b : Bool} (h : a = true ↔ b = true) : a = b := by
  cases a <;> cases b <;> simp_all

@[simp]
theorem kmapFind_nil (k : Nat) : kmapFind [] k = none := rfl

@[simp]
theorem kmapFind_cons (k1 : Nat) (v1 : List AnnotatedKernel) (rest : KMap) (k : Nat) :
    kmapFind ((k1, v1) :: rest) k = if k1 = k then some v1 else kmapFind rest k := rfl

@[simp]
theorem kmapSet_nil (k : Nat) (v : List AnnotatedKernel) : kmapSet [] k v = [] := rfl

@[simp]
theorem kmapSet_cons (k1 : Nat) (v1 : List AnnotatedKernel) (rest : KMap)
    (k : Nat) (v : List AnnotatedKernel) :
    kmapSet ((k1, v1) :: rest) k v =
      if k1 = k then (k, v) :: rest else (k1, v1) :: kmapSet rest k v := rfl

@[simp]
theorem kmapErase_nil (k : Nat) : kmapErase [] k = [] := rfl

@[simp]
theorem kmapErase_cons (k1 : Nat) (v1 : List AnnotatedKernel) (rest : KMap) (k : Nat) :
    kmapErase ((k1, v1) :: rest) k =
      if k1 = k then rest else (k1, v1) :: kmapErase rest k := rfl

@[simp]
theorem eraseByRegId_nil (tok : Nat) : eraseByRegId [] tok = [] := rfl

@[simp]
theorem eraseByRegId_cons (a : AnnotatedKernel) (rest : List AnnotatedKernel) (tok : Nat) :
    eraseByRegId (a :: rest) tok =
      if a.regId = tok then rest else a :: eraseByRegId rest tok := rfl

theorem kmapFind_kmapSet_self (m : KMap) (k : Nat) (v : List AnnotatedKernel)
    (h : (kmapFind m k).isSome = true) : kmapFind (kmapSet m k v) k = some v := by
  induction m with
  | nil => simp at h
  | cons kv rest ih =>
    obtain ⟨k1, v1⟩ := kv
    by_cases hk : k1 = k
    · simp [hk]
    · simp only [kmapFind_cons, hk, if_false] at h
      simp [hk, ih h]

theorem kmapFind_kmapSet_ne (m : KMap) (k : Nat) (v : List AnnotatedKernel) (j : Nat)
    (h : j ≠ k) : kmapFind (kmapSet m k v) j = kmapFind m j := by
  induction m with
  | nil => rfl
  | cons kv rest ih =>
    obtain ⟨k1, v1⟩ := kv
    rw [kmapSet_cons]
    by_cases hk : k1 = k
    · rw [if_pos hk, kmapFind_cons, kmapFind_cons]
      have hne : ¬ k = j := fun hh => h hh.symm
      have hne1 : ¬ k1 = j := by rw [hk]; exact hne
      rw [if_neg hne, if_neg hne1]
    · rw [if_neg hk, kmapFind_cons, kmapFind_cons]
      by_cases hj : k1 = j
      · rw [if_pos hj, if_pos hj]
      · rw [if_neg hj, if_neg hj, ih]

theorem kmapSet_self (m : KMap) (k : Nat) (l : List AnnotatedKernel)
    (h : kmapFind m k = some l) : kmapSet m k l = m := by
  induction m with
  | nil => rfl
  | cons kv rest ih =>
    obtain ⟨k1, v1⟩ := kv
    by_cases hk : k1 = k
    · simp only [kmapFind_cons, hk, if_true] at h
      injection h with h2
      simp [hk, h2]
    · simp only [kmapFind_cons, hk, if_false] at h
      simp [hk, ih h]

theorem kmapFind_kmapErase_ne (m : KMap) (k j : Nat) (h : j ≠ k) :
    kmapFind (kmapErase m k) j = kmapFind m j := by
  induction m with
  | nil => rfl
  | cons kv rest ih =>
    obtain ⟨k1, v1⟩ := kv
    rw [kmapErase_cons]
    by_cases hk : k1 = k
    · rw [if_pos hk, kmapFind_cons]
      have hne1 : ¬ k1 = j := by rw [hk]; exact fun hh => h hh.symm
      rw [if_neg hne1]
    · rw [if_neg hk, kmapFind_cons, kmapFind_cons]
      by_cases hj : k1 = j
      · rw [if_pos hj, if_pos hj]
      · rw [if_neg hj, if_neg hj, ih]

theorem kmapFind_kmapEmplaceFront_self (m : KMap) (k : Nat) (a : AnnotatedKernel) :
    kmapFind (kmapEmplaceFront m k a) k = some (a :: (kmapFind m k).getD []) := by
  unfold kmapEmplaceFront
  cases h : kmapFind m k with
  | some l => simp [kmapFind_kmapSet_self m k _ (by simp [h]), h]
  | none => simp [h]

theorem kmapFind_kmapEmplaceFront_ne (m : KMap) (k : Nat) (a : AnnotatedKernel) (j : Nat)
    (h : j ≠ k) : kmapFind (kmapEmplaceFront m k a) j = kmapFind m j := by
  unfold kmapEmplaceFront
  cases hf : kmapFind m k with
  | some l => exact kmapFind_kmapSet_ne m k _ j h
  | none =>
    rw [kmapFind_cons, if_neg (fun hh : k = j => h hh.symm)]

theorem kmapFind_isSome_of_mem (m : KMap) (kv : Nat × List AnnotatedKernel) (h : kv ∈ m) :
    (kmapFind m kv.1).isSome = true := by
  induction m with
  | nil => cases h
  | cons kw rest ih =>
    obtain ⟨k1, v1⟩ := kw
    rcases List.mem_cons.mp h with h | h
    · subst h; simp
    · by_cases hk : k1 = kv.1
      · simp [hk]
      · simp only [kmapFind_cons, hk, if_false]
        exact ih h

theorem mem_of_kmapFind_eq_some (m : KMap) (k : Nat) (l : List AnnotatedKernel)
    (h : kmapFind m k = some l) : (k, l) ∈ m := by
  induction m with
  | nil => simp at h
  | cons kv rest ih =>
    obtain ⟨k1, v1⟩ := kv
    by_cases hk : k1 = k
    · simp only [kmapFind_cons, hk, if_true] at h
      injection h with h2
      subst hk
      subst h2
      exact List.mem_cons_self _ _
    · simp only [kmapFind_cons, hk, if_false] at h
      exact List.mem_cons.mpr (Or.inr (ih h))

theorem hasKernelForDispatchKey_eq_isSome (m : KMap) (k : Nat) :
    hasKernelForDispatchKey m k = (kmapFind m k).isSome := by
  induction m with
  | nil => rfl
  | cons kv rest ih =>
    obtain ⟨k1, v1⟩ := kv
    unfold hasKernelForDispatchKey at ih ⊢
    by_cases hk : k1 = k
    · simp [List.any_cons, hk]
    · simp [List.any_cons, hk, ih]

theorem hasKernelForAnyDispatchKey_iff (m : KMap) (ks : List Nat) :
    hasKernelForAnyDispatchKey m ks = true ↔
      ∃ d ∈ ks, isAliasDispatchKey d = false ∧ (kmapFind m d).isSome = true := by
  constructor
  · intro h
    rcases List.any_eq_true.mp h with ⟨kv, hmem, hp⟩
    simp only [Bool.and_eq_true, Bool.not_eq_true', List.elem_iff] at hp
    exact ⟨kv.1, hp.2, hp.1, kmapFind_isSome_of_mem m kv hmem⟩
  · rintro ⟨d, hdks, hal, hsome⟩
    rcases Option.isSome_iff_exists.mp hsome with ⟨l, hl⟩
    exact List.any_eq_true.mpr ⟨(d, l), mem_of_kmapFind_eq_some m d l hl,
      by simp [hal, List.elem_iff, hdks]⟩

/-- `hasKernelForAnyDispatchKey` is a function of the key-indexed lookups
only (the map's iteration order is irrelevant). -/
theorem hasKernelForAnyDispatchKey_congr (m m' : KMap) (ks : List Nat)
    (h : ∀ d ∈ ks, (kmapFind m d).isSome = (kmapFind m' d).isSome) :
    hasKernelForAnyDispatchKey m ks = hasKernelForAnyDispatchKey m' ks := by
  refine bool_eq_of_iff ?_
  rw [hasKernelForAnyDispatchKey_iff, hasKernelForAnyDispatchKey_iff]
  constructor
  · rintro ⟨d, hd, hal, hs⟩
    exact ⟨d, hd, hal, by rw [← h d hd]; exact hs⟩
  · rintro ⟨d, hd, hal, hs⟩
    exact ⟨d, hd, hal, by rw [h d hd]; exact hs⟩

/-! ### Characterization of the update machinery -/

theorem updateDispatchTableEntry_kernels (fb : Fallback) (s : OperatorEntry) (k : Nat) :
    (updateDispatchTableEntry_ fb s k).kernels = s.kernels := by
  unfold updateDispatchTableEntry_
  split <;> rfl

theorem updateDispatchTableEntry_schema (fb : Fallback) (s : OperatorEntry) (k : Nat) :
    (updateDispatchTableEntry_ fb s k).schema = s.schema := by
  unfold updateDispatchTableEntry_
  split <;> rfl

theorem updateDispatchTableEntry_cppSig (fb : Fallback) (s : OperatorEntry) (k : Nat) :
    (updateDispatchTableEntry_ fb s k).cppSig = s.cppSig := by
  unfold updateDispatchTableEntry_
  split <;> rfl

theorem updateDispatchTableEntry_nextId (fb : Fallback) (s : OperatorEntry) (k : Nat) :
    (updateDispatchTableEntry_ fb s k).nextId = s.nextId := by
  unfold updateDispatchTableEntry_
  split <;> rfl

theorem updateDispatchTableEntry_table (fb : Fallback) (s : OperatorEntry) (k j : Nat) :
    (updateDispatchTableEntry_ fb s k).table j =
      if j = k ∧ hasDispatchTableIndex j = true then
        computeDispatchTableEntry fb s.kernels j
      else s.table j := by
  unfold updateDispatchTableEntry_ updSlot
  by_cases hidx : hasDispatchTableIndex k = true
  · rw [if_neg (by rw [hidx]; intro hf; cases hf)]
    dsimp only
    by_cases hj : j = k
    · subst hj
      rw [if_pos rfl, if_pos ⟨rfl, hidx⟩]
    · rw [if_neg hj, if_neg (fun hand => hj hand.1)]
  · have hfalse : hasDispatchTableIndex k = false := by
      cases h : hasDispatchTableIndex k
      · rfl
      · exact absurd h hidx
    rw [if_pos hfalse]
    by_cases hj : j = k
    · subst hj
      rw [if_neg (fun hand => hidx hand.2)]
    · rw [if_neg (fun hand => hj hand.1)]

theorem foldlEntries_kernels (fb : Fallback) (L : List Nat) (s : OperatorEntry) :
    (L.foldl (updateDispatchTableEntry_ fb) s).kernels = s.kernels := by
  induction L generalizing s with
  | nil => rfl
  | cons k rest ih =>
    rw [List.foldl_cons, ih, updateDispatchTableEntry_kernels]

theorem foldlEntries_schema (fb : Fallback) (L : List Nat) (s : OperatorEntry) :
    (L.foldl (updateDispatchTableEntry_ fb) s).schema = s.schema := by
  induction L generalizing s with
  | nil => rfl
  | cons k rest ih =>
    rw [List.foldl_cons, ih, updateDispatchTableEntry_schema]

theorem foldlEntries_cppSig (fb : Fallback) (L : List Nat) (s : OperatorEntry) :
    (L.foldl (updateDispatchTableEntry_ fb) s).cppSig = s.cppSig := by
  induction L generalizing s with
  | nil => rfl
  | cons k rest ih =>
    rw [List.foldl_cons, ih, updateDispatchTableEntry_cppSig]

theorem foldlEntries_nextId (fb : Fallback) (L : List Nat) (s : OperatorEntry) :
    (L.foldl (updateDispatchTableEntry_ fb) s).nextId = s.nextId := by
  induction L generalizing s with
  | nil => rfl
  | cons k rest ih =>
    rw [List.foldl_cons, ih, updateDispatchTableEntry_nextId]

theorem foldlEntries_table (fb : Fallback) (L : List Nat) (s : OperatorEntry) (j : Nat) :
    (L.foldl (updateDispatchTableEntry_ fb) s).table j =
      if j ∈ L ∧ hasDispatchTableIndex j = true then
        computeDispatchTableEntry fb s.kernels j
      else s.table j := by
  induction L generalizing s with
  | nil => simp
  | cons k rest ih =>
    rw [List.foldl_cons, ih, updateDispatchTableEntry_kernels, updateDispatchTableEntry_table]
    by_cases hidx : hasDispatchTableIndex j = true
    · by_cases hr : j ∈ rest
      · rw [if_pos ⟨hr, hidx⟩, if_pos ⟨List.mem_cons.mpr (Or.inr hr), hidx⟩]
      · rw [if_neg (fun hand => hr hand.1)]
        by_cases hjk : j = k
        · rw [if_pos ⟨hjk, hidx⟩, if_pos ⟨List.mem_cons.mpr (Or.inl hjk), hidx⟩]
        · rw [if_neg (fun hand => hjk hand.1),
            if_neg (fun hand => (by
              rcases List.mem_cons.mp hand.1 with h | h
              · exact hjk h
              · exact hr h : False))]
    · rw [if_neg (fun hand => hidx hand.2), if_neg (fun hand => hidx hand.2),
        if_neg (fun hand => hidx hand.2)]

/-- `updateDispatchTable_` is the per-slot refresh of exactly the keys in
`refreshList`. -/
theorem updateDispatchTable_eq_foldl (fb : Fallback) (s : OperatorEntry) (dk : Nat) :
    updateDispatchTable_ fb s dk = (refreshList dk).foldl (updateDispatchTableEntry_ fb) s := by
  unfold updateDispatchTable_ refreshList
  by_cases h0 : dk = DK.Undefined
  · simp [h0]
  · simp only [h0, if_false]
    by_cases hc : dk = DK.CompositeImplicitAutograd ∨ dk = DK.CompositeExplicitAutograd ∨
        dk = DK.CompositeExplicitAutogradNonFunctional
    · by_cases hb : isBackendDispatchKey dk = true
      · simp [hc, hb, List.foldl_append]
      · simp [hc, hb, List.foldl_append]
    · by_cases hb : isBackendDispatchKey dk = true
      · simp [hc, hb, List.foldl_append]
      · simp [hc, hb, List.foldl_append]

theorem updateDispatchTable_kernels (fb : Fallback) (s : OperatorEntry) (dk : Nat) :
    (updateDispatchTable_ fb s dk).kernels = s.kernels := by
  rw [updateDispatchTable_eq_foldl, foldlEntries_kernels]

theorem updateDispatchTable_schema (fb : Fallback) (s : OperatorEntry) (dk : Nat) :
    (updateDispatchTable_ fb s dk).schema = s.schema := by
  rw [updateDispatchTable_eq_foldl, foldlEntries_schema]

theorem updateDispatchTable_cppSig (fb : Fallback) (s : OperatorEntry) (dk : Nat) :
    (updateDispatchTable_ fb s dk).cppSig = s.cppSig := by
  rw [updateDispatchTable_eq_foldl, foldlEntries_cppSig]

theorem updateDispatchTable_nextId (fb : Fallback) (s : OperatorEntry) (dk : Nat) :
    (updateDispatchTable_ fb s dk).nextId = s.nextId := by
  rw [updateDispatchTable_eq_foldl, foldlEntries_nextId]

theorem updateDispatchTable_table (fb : Fallback) (s : OperatorEntry) (dk j : Nat) :
    (updateDispatchTable_ fb s dk).table j =
      if j ∈ refreshList dk ∧ hasDispatchTableIndex j = true then
        computeDispatchTableEntry fb s.kernels j
      else s.table j := by
  rw [updateDispatchTable_eq_foldl, foldlEntries_table]

theorem foldlTables_kernels (fb : Fallback) (L : List Nat) (s : OperatorEntry) :
    (L.foldl (updateDispatchTable_ fb) s).kernels = s.kernels := by
  induction L generalizing s with
  | nil => rfl
  | cons k rest ih =>
    rw [List.foldl_cons, ih, updateDispatchTable_kernels]

theorem foldlTables_table (fb : Fallback) (L : List Nat) (s : OperatorEntry) (j : Nat) :
    (L.foldl (updateDispatchTable_ fb) s).table j =
      if (∃ k ∈ L, j ∈ refreshList k) ∧ hasDispatchTableIndex j = true then
        computeDispatchTableEntry fb s.kernels j
      else s.table j := by
  induction L generalizing s with
  | nil => simp
  | cons k rest ih =>
    rw [List.foldl_cons, ih, updateDispatchTable_kernels, updateDispatchTable_table]
    by_cases hidx : hasDispatchTableIndex j = true
    · by_cases hr : ∃ k2 ∈ rest, j ∈ refreshList k2
      · rcases hr with ⟨k2, hk2, hjk2⟩
        rw [if_pos ⟨⟨k2, hk2, hjk2⟩, hidx⟩,
          if_pos ⟨⟨k2, List.mem_cons.mpr (Or.inr hk2), hjk2⟩, hidx⟩]
      · rw [if_neg (fun hand => hr hand.1)]
        by_cases hjk : j ∈ refreshList k
        · rw [if_pos ⟨hjk, hidx⟩, if_pos ⟨⟨k, List.mem_cons_self _ _, hjk⟩, hidx⟩]
        · rw [if_neg (fun hand => hjk hand.1),
            if_neg (fun hand => (by
              rcases hand.1 with ⟨k3, hk3, hjk3⟩
              rcases List.mem_cons.mp hk3 with h | h
              · exact hjk (h ▸ hjk3)
              · exact hr ⟨k3, h, hjk3⟩ : False))]
    · rw [if_neg (fun hand => hidx hand.2), if_neg (fun hand => hidx hand.2),
        if_neg (fun hand => hidx hand.2)]

/-- Every table key refreshes its own slot. -/
theorem mem_refreshList_self : ∀ j ∈ tableKeysList, j ∈ refreshList j := by
  decide

theorem updateDispatchTableFull_kernels (fb : Fallback) (s : OperatorEntry) :
    (updateDispatchTableFull_ fb s).kernels = s.kernels := by
  unfold updateDispatchTableFull_
  rw [foldlTables_kernels, updateDispatchTable_kernels]

theorem foldlTables_schema (fb : Fallback) (L : List Nat) (s : OperatorEntry) :
    (L.foldl (updateDispatchTable_ fb) s).schema = s.schema := by
  induction L generalizing s with
  | nil => rfl
  | cons k rest ih =>
    rw [List.foldl_cons, ih, updateDispatchTable_schema]

theorem foldlTables_cppSig (fb : Fallback) (L : List Nat) (s : OperatorEntry) :
    (L.foldl (updateDispatchTable_ fb) s).cppSig = s.cppSig := by
  induction L generalizing s with
  | nil => rfl
  | cons k rest ih =>
    rw [List.foldl_cons, ih, updateDispatchTable_cppSig]

theorem foldlTables_nextId (fb : Fallback) (L : List Nat) (s : OperatorEntry) :
    (L.foldl (updateDispatchTable_ fb) s).nextId = s.nextId := by
  induction L generalizing s with
  | nil => rfl
  | cons k rest ih =>
    rw [List.foldl_cons, ih, updateDispatchTable_nextId]

theorem updateDispatchTableFull_schema (fb : Fallback) (s : OperatorEntry) :
    (updateDispatchTableFull_ fb s).schema = s.schema := by
  unfold updateDispatchTableFull_
  rw [foldlTables_schema, updateDispatchTable_schema]

theorem updateDispatchTableFull_cppSig (fb : Fallback) (s : OperatorEntry) :
    (updateDispatchTableFull_ fb s).cppSig = s.cppSig := by
  unfold updateDispatchTableFull_
  rw [foldlTables_cppSig, updateDispatchTable_cppSig]

theorem updateDispatchTableFull_nextId (fb : Fallback) (s : OperatorEntry) :
    (updateDispatchTableFull_ fb s).nextId = s.nextId := by
  unfold updateDispatchTableFull_
  rw [foldlTables_nextId, updateDispatchTable_nextId]

theorem getKernelForDispatchKey_congr (m m' : KMap) (k : Nat)
    (h : kmapFind m k = kmapFind m' k) :
    getKernelForDispatchKey m k = getKernelForDispatchKey m' k := by
  unfold getKernelForDispatchKey
  rw [h]

/-- `computeTailEntry` reads only the `Autograd` alias registration (when the
key is in its set) and the fallback slot of the key itself. -/
theorem computeTailEntry_congr (fb fb' : Fallback) (m m' : KMap) (j : Nat)
    (hauto : isIncludedInAlias j DK.Autograd = true →
      getKernelForDispatchKey m DK.Autograd = getKernelForDispatchKey m' DK.Autograd)
    (hfb : fb j = fb' j) :
    computeTailEntry fb m j = computeTailEntry fb' m' j := by
  unfold computeTailEntry
  have e1 : (if isIncludedInAlias j DK.Autograd = true then
        getKernelForDispatchKey m' DK.Autograd else none) =
      (if isIncludedInAlias j DK.Autograd = true then
        getKernelForDispatchKey m DK.Autograd else none) := by
    by_cases hg : isIncludedInAlias j DK.Autograd = true
    · rw [if_pos hg, if_pos hg, hauto hg]
    · rw [if_neg hg, if_neg hg]
  rw [e1, hfb]

/-- The precedence computation is a congruence in the registrations it
actually consults for a key `j`: the direct registration, the three composite
alias registrations (under their guards), the `Autograd` alias registration,
the backend-kernel existence checks (when the implicit composite applies),
the `AutogradOther` ambiguity check, and the fallback slot of `j`. -/
theorem computeDispatchTableEntryWithDebug_congr (fb fb' : Fallback) (m m' : KMap) (j : Nat)
    (hdir : getKernelForDispatchKey m j = getKernelForDispatchKey m' j)
    (hcenf : (j = DK.Undefined ∨
        isIncludedInAlias j DK.CompositeExplicitAutogradNonFunctional = true) →
      getKernelForDispatchKey m DK.CompositeExplicitAutogradNonFunctional =
        getKernelForDispatchKey m' DK.CompositeExplicitAutogradNonFunctional)
    (hcea : (j = DK.Undefined ∨ isIncludedInAlias j DK.CompositeExplicitAutograd = true) →
      getKernelForDispatchKey m DK.CompositeExplicitAutograd =
        getKernelForDispatchKey m' DK.CompositeExplicitAutograd)
    (hcia : (j = DK.Undefined ∨ isIncludedInAlias j DK.CompositeImplicitAutograd = true) →
      getKernelForDispatchKey m DK.CompositeImplicitAutograd =
        getKernelForDispatchKey m' DK.CompositeImplicitAutograd)
    (hhasbk : (j = DK.Undefined ∨ isIncludedInAlias j DK.CompositeImplicitAutograd = true) →
      (getKernelForDispatchKey m DK.CompositeImplicitAutograd).isSome = true →
      hasKernelForAnyDispatchKey m (getBackendKeySetFromAutograd j) =
        hasKernelForAnyDispatchKey m' (getBackendKeySetFromAutograd j) ∧
      hasKernelForDispatchKey m DK.CompositeExplicitAutograd =
        hasKernelForDispatchKey m' DK.CompositeExplicitAutograd)
    (hother : j = DK.AutogradOther →
      (getKernelForDispatchKey m DK.CompositeImplicitAutograd).isSome = true →
      hasKernelForAnyDispatchKey m autogradother_backends =
        hasKernelForAnyDispatchKey m' autogradother_backends)
    (hauto : isIncludedInAlias j DK.Autograd = true →
      getKernelForDispatchKey m DK.Autograd = getKernelForDispatchKey m' DK.Autograd)
    (hfb : fb j = fb' j) :
    computeDispatchTableEntryWithDebug fb m j = computeDispatchTableEntryWithDebug fb' m' j := by
  unfold computeDispatchTableEntryWithDebug
  rw [← hdir]
  cases h1 : getKernelForDispatchKey m j with
  | some a => rfl
  | none =>
    simp only [h1]
    have e2 : (if (j = DK.Undefined ∨
          isIncludedInAlias j DK.CompositeExplicitAutogradNonFunctional = true) then
          getKernelForDispatchKey m' DK.CompositeExplicitAutogradNonFunctional else none) =
        (if (j = DK.Undefined ∨
          isIncludedInAlias j DK.CompositeExplicitAutogradNonFunctional = true) then
          getKernelForDispatchKey m DK.CompositeExplicitAutogradNonFunctional else none) := by
      by_cases hg : (j = DK.Undefined ∨
          isIncludedInAlias j DK.CompositeExplicitAutogradNonFunctional = true)
      · rw [if_pos hg, if_pos hg, hcenf hg]
      · rw [if_neg hg, if_neg hg]
    rw [e2]
    cases h2 : (if (j = DK.Undefined ∨
        isIncludedInAlias j DK.CompositeExplicitAutogradNonFunctional = true) then
        getKernelForDispatchKey m DK.CompositeExplicitAutogradNonFunctional else none) with
    | some a => rfl
    | none =>
      simp only [h2]
      have e3 : (if (j = DK.Undefined ∨
            isIncludedInAlias j DK.CompositeExplicitAutograd = true) then
            getKernelForDispatchKey m' DK.CompositeExplicitAutograd else none) =
          (if (j = DK.Undefined ∨ isIncludedInAlias j DK.CompositeExplicitAutograd = true) then
            getKernelForDispatchKey m DK.CompositeExplicitAutograd else none) := by
        by_cases hg : (j = DK.Undefined ∨ isIncludedInAlias j DK.CompositeExplicitAutograd = true)
        · rw [if_pos hg, if_pos hg, hcea hg]
        · rw [if_neg hg, if_neg hg]
      rw [e3]
      cases h3 : (if (j = DK.Undefined ∨
          isIncludedInAlias j DK.CompositeExplicitAutograd = true) then
          getKernelForDispatchKey m DK.CompositeExplicitAutograd else none) with
      | some a => rfl
      | none =>
        simp only [h3]
        by_cases hg4 : (j = DK.Undefined ∨ isIncludedInAlias j DK.CompositeImplicitAutograd = true)
        · rw [if_pos hg4, if_pos hg4, ← hcia hg4]
          cases h4 : getKernelForDispatchKey m DK.CompositeImplicitAutograd with
          | none =>
            simp only [h4]
            exact computeTailEntry_congr fb fb' m m' j hauto hfb
          | some math_registration =>
            simp only [h4]
            have hciaSome : (getKernelForDispatchKey m DK.CompositeImplicitAutograd).isSome = true := by
              rw [h4]; rfl
            obtain ⟨hbkeq, hkdeq⟩ := hhasbk hg4 hciaSome
            have hcond : (hasKernelForAnyDispatchKey m (getBackendKeySetFromAutograd j) ||
                  hasKernelForDispatchKey m DK.CompositeExplicitAutograd) =
                (hasKernelForAnyDispatchKey m' (getBackendKeySetFromAutograd j) ||
                  hasKernelForDispatchKey m' DK.CompositeExplicitAutograd) := by
              rw [hbkeq, hkdeq]
            have tailStep : (if (hasKernelForAnyDispatchKey m (getBackendKeySetFromAutograd j) ||
                    hasKernelForDispatchKey m DK.CompositeExplicitAutograd) = false then
                  ((TableEntry.kern math_registration.kid, "math kernel") : TableEntry × String)
                else computeTailEntry fb m j) =
                (if (hasKernelForAnyDispatchKey m' (getBackendKeySetFromAutograd j) ||
                    hasKernelForDispatchKey m' DK.CompositeExplicitAutograd) = false then
                  ((TableEntry.kern math_registration.kid, "math kernel") : TableEntry × String)
                else computeTailEntry fb' m' j) := by
              by_cases hbk : (hasKernelForAnyDispatchKey m (getBackendKeySetFromAutograd j) ||
                  hasKernelForDispatchKey m DK.CompositeExplicitAutograd) = false
              · rw [if_pos hbk, if_pos (by rw [← hcond]; exact hbk)]
              · rw [if_neg hbk, if_neg (fun hh => hbk (by rw [hcond]; exact hh))]
                exact computeTailEntry_congr fb fb' m m' j hauto hfb
            by_cases hj23 : j = DK.AutogradOther
            · have hao : hasKernelForAnyDispatchKey m autogradother_backends =
                  hasKernelForAnyDispatchKey m' autogradother_backends :=
                hother hj23 hciaSome
              by_cases hamb : hasKernelForAnyDispatchKey m autogradother_backends = true
              · rw [if_pos (show j = DK.AutogradOther ∧
                      hasKernelForAnyDispatchKey m autogradother_backends = true from
                      ⟨hj23, hamb⟩),
                  if_pos (show j = DK.AutogradOther ∧
                      hasKernelForAnyDispatchKey m' autogradother_backends = true from
                      ⟨hj23, by rw [← hao]; exact hamb⟩)]
              · rw [if_neg (show ¬ (j = DK.AutogradOther ∧
                      hasKernelForAnyDispatchKey m autogradother_backends = true) from
                      fun hand => hamb hand.2),
                  if_neg (show ¬ (j = DK.AutogradOther ∧
                      hasKernelForAnyDispatchKey m' autogradother_backends = true) from
                      fun hand => hamb (by rw [hao]; exact hand.2))]
                exact tailStep
            · rw [if_neg (show ¬ (j = DK.AutogradOther ∧
                    hasKernelForAnyDispatchKey m autogradother_backends = true) from
                    fun hand => hj23 hand.1),
                if_neg (show ¬ (j = DK.AutogradOther ∧
                    hasKernelForAnyDispatchKey m' autogradother_backends = true) from
                    fun hand => hj23 hand.1)]
              exact tailStep
        · rw [if_neg hg4, if_neg hg4]
          simp only
          exact computeTailEntry_congr fb fb' m m' j hauto hfb

/-! ### Coverage of the per-key refresh

The keys whose computed entry can read a registration at `dk` all lie in
`refreshList dk` (with the single exception of the `CompositeExplicitAutograd`
back-reference through `has_backend_kernel` when a `CompositeImplicitAutograd`
kernel is present, which rule 2.3 of the C++ also documents). -/

set_option maxRecDepth 4000 in
theorem refresh_covers_cenf :
    ∀ j ∈ tableKeysList,
      (j = DK.Undefined ∨ isIncludedInAlias j DK.CompositeExplicitAutogradNonFunctional = true) →
      j ∈ refreshList DK.CompositeExplicitAutogradNonFunctional := by
  decide

set_option maxRecDepth 4000 in
theorem refresh_covers_cea :
    ∀ j ∈ tableKeysList,
      (j = DK.Undefined ∨ isIncludedInAlias j DK.CompositeExplicitAutograd = true) →
      j ∈ refreshList DK.CompositeExplicitAutograd := by
  decide

set_option maxRecDepth 4000 in
theorem refresh_covers_cia :
    ∀ j ∈ tableKeysList,
      (j = DK.Undefined ∨ isIncludedInAlias j DK.CompositeImplicitAutograd = true) →
      j ∈ refreshList DK.CompositeImplicitAutograd := by
  decide

set_option maxRecDepth 4000 in
theorem refresh_covers_autograd :
    ∀ j ∈ tableKeysList, isIncludedInAlias j DK.Autograd = true →
      j ∈ refreshList DK.Autograd := by
  decide

set_option maxRecDepth 4000 in
theorem refresh_covers_bks :
    ∀ j ∈ tableKeysList, ∀ d ∈ getBackendKeySetFromAutograd j, j ∈ refreshList d := by
  decide

theorem refresh_covers_other :
    ∀ d ∈ autogradother_backends, DK.AutogradOther ∈ refreshList d := by
  decide

/-- Changing the kernel map at a single key `dk` leaves the computed entry of
every table key outside `refreshList dk` unchanged — provided no
`CompositeImplicitAutograd` kernel is registered when `dk` is
`CompositeExplicitAutograd` (the one documented cross-dependency). -/
theorem computeEntry_stable (fb : Fallback) (m m' : KMap) (dk : Nat)
    (hne : ∀ d, d ≠ dk → kmapFind m' d = kmapFind m d)
    (hciaNone : dk = DK.CompositeExplicitAutograd →
      getKernelForDispatchKey m DK.CompositeImplicitAutograd = none)
    (j : Nat) (hj : hasDispatchTableIndex j = true) (hout : j ∉ refreshList dk) :
    computeDispatchTableEntryWithDebug fb m' j = computeDispatchTableEntryWithDebug fb m j := by
  have hjmem : j ∈ tableKeysList := (hasDispatchTableIndex_iff_mem j).mp hj
  have hjdk : j ≠ dk := fun h => hout (h ▸ mem_refreshList_self j hjmem)
  have hgk : ∀ d, d ≠ dk →
      getKernelForDispatchKey m' d = getKernelForDispatchKey m d :=
    fun d hd => getKernelForDispatchKey_congr m' m d (hne d hd)
  refine computeDispatchTableEntryWithDebug_congr fb fb m' m j (hgk j hjdk) ?_ ?_ ?_ ?_ ?_ ?_ rfl
  · intro hg
    by_cases hdk : dk = DK.CompositeExplicitAutogradNonFunctional
    · exact absurd (by rw [hdk]; exact refresh_covers_cenf j hjmem hg) hout
    · exact hgk _ (fun hh => hdk hh.symm)
  · intro hg
    by_cases hdk : dk = DK.CompositeExplicitAutograd
    · exact absurd (by rw [hdk]; exact refresh_covers_cea j hjmem hg) hout
    · exact hgk _ (fun hh => hdk hh.symm)
  · intro hg
    by_cases hdk : dk = DK.CompositeImplicitAutograd
    · exact absurd (by rw [hdk]; exact refresh_covers_cia j hjmem hg) hout
    · exact hgk _ (fun hh => hdk hh.symm)
  · intro _ hsome
    constructor
    · refine hasKernelForAnyDispatchKey_congr m' m _ ?_
      intro d hd
      have hddk : d ≠ dk := fun h => hout (h ▸ refresh_covers_bks j hjmem d hd)
      rw [hne d hddk]
    · rw [hasKernelForDispatchKey_eq_isSome, hasKernelForDispatchKey_eq_isSome]
      by_cases hdk : dk = DK.CompositeExplicitAutograd
      · exfalso
        have h117 : DK.CompositeImplicitAutograd ≠ dk := by rw [hdk]; decide
        rw [hgk _ h117, hciaNone hdk] at hsome
        simp at hsome
      · rw [hne _ (fun hh => hdk hh.symm)]
  · intro hj23 _
    refine hasKernelForAnyDispatchKey_congr m' m _ ?_
    intro d hd
    have hddk : d ≠ dk := fun h => hout (by
      rw [hj23]
      exact h ▸ refresh_covers_other d hd)
    rw [hne d hddk]
  · intro hg
    by_cases hdk : dk = DK.Autograd
    · exact absurd (by rw [hdk]; exact refresh_covers_autograd j hjmem hg) hout
    · exact hgk _ (fun hh => hdk hh.symm)

theorem updateDispatchTableFull_table (fb : Fallback) (s : OperatorEntry) (j : Nat)
    (hj : hasDispatchTableIndex j = true) :
    (updateDispatchTableFull_ fb s).table j = computeDispatchTableEntry fb s.kernels j := by
  unfold updateDispatchTableFull_
  rw [foldlTables_table, updateDispatchTable_kernels, updateDispatchTable_table]
  rcases List.mem_cons.mp ((hasDispatchTableIndex_iff_mem j).mp hj) with h0 | hrt
  · have hj0 : j ∈ refreshList DK.Undefined := by
      rw [h0]; decide
    by_cases hex : ∃ k ∈ runtimeKeysList, j ∈ refreshList k
    · simp [hex, hj]
    · simp [hex, hj, hj0]
  · have hex : ∃ k ∈ runtimeKeysList, j ∈ refreshList k :=
      ⟨j, hrt, mem_refreshList_self j (List.mem_cons.mpr (Or.inr hrt))⟩
    simp [hex, hj]

/-! ### Preservation of the consistency invariant -/

/-- After a change of the kernel map at the single key `dk`, the per-key
update re-establishes the consistency of every table slot. -/
theorem preserve_kernel_change (fb : Fallback) (s1 : OperatorEntry)
    (told : Nat → TableEntry) (mold : KMap) (dk : Nat)
    (htable : s1.table = told)
    (hconsold : ∀ j, hasDispatchTableIndex j = true →
      told j = computeDispatchTableEntry fb mold j)
    (hne : ∀ d, d ≠ dk → kmapFind s1.kernels d = kmapFind mold d)
    (hciaNone : dk = DK.CompositeExplicitAutograd →
      getKernelForDispatchKey mold DK.CompositeImplicitAutograd = none) :
    ∀ j, hasDispatchTableIndex j = true →
      (updateDispatchTable_ fb s1 dk).table j =
        computeDispatchTableEntry fb s1.kernels j := by
  intro j hj
  rw [updateDispatchTable_table]
  by_cases hin : j ∈ refreshList dk
  · rw [if_pos ⟨hin, hj⟩]
  · rw [if_neg (fun hand => hin hand.1), htable, hconsold j hj]
    unfold computeDispatchTableEntry
    rw [computeEntry_stable fb mold s1.kernels dk hne hciaNone j hj hin]

theorem tableConsistent_cppSig (fb : Fallback) (s : OperatorEntry) (c : Option Nat)
    (h : TableConsistent (fb, s)) : TableConsistent (fb, { s with cppSig := c }) := by
  intro j hj
  exact h j hj

theorem tableConsistent_schema (fb : Fallback) (s : OperatorEntry) (c : Option Nat)
    (h : TableConsistent (fb, s)) : TableConsistent (fb, { s with schema := c }) := by
  intro j hj
  exact h j hj

theorem registerKernelInsert_preserves (fb : Fallback) (s : OperatorEntry)
    (dispatch_key : Option Nat) (kid : Nat) (inf : Option Nat)
    (hcons : TableConsistent (fb, s))
    (hsafe : ∀ k, dispatch_key = some k → k = DK.CompositeExplicitAutograd →
      getKernelForDispatchKey s.kernels DK.CompositeImplicitAutograd = none) :
    TableConsistent (fb, (registerKernelInsert fb s dispatch_key kid inf).2.1) := by
  unfold registerKernelInsert
  cases dispatch_key with
  | none =>
    intro j hj
    dsimp only
    rw [updateDispatchTableFull_kernels, updateDispatchTableFull_table _ _ j hj]
  | some k =>
    intro j hj
    dsimp only
    rw [updateDispatchTable_kernels]
    refine preserve_kernel_change fb
      { s with kernels := kmapEmplaceFront s.kernels k ⟨kid, inf, s.nextId⟩, nextId := s.nextId + 1 }
      s.table s.kernels k rfl (fun i hi => hcons i hi) ?_ (hsafe k rfl) j hj
    intro d hd
    exact kmapFind_kmapEmplaceFront_ne s.kernels k _ d hd

theorem registerKernelChecked_preserves (fb : Fallback) (s : OperatorEntry)
    (dispatch_key : Option Nat) (kid : Nat) (inf : Option Nat)
    (hcons : TableConsistent (fb, s))
    (hsafe : ∀ k, dispatch_key = some k → k = DK.CompositeExplicitAutograd →
      getKernelForDispatchKey s.kernels DK.CompositeImplicitAutograd = none) :
    TableConsistent (fb, (registerKernelChecked fb s dispatch_key kid inf).2.1) := by
  unfold registerKernelChecked
  cases hs : s.schema with
  | none => exact registerKernelInsert_preserves fb s dispatch_key kid inf hcons hsafe
  | some schema =>
    cases hi : inf with
    | none => exact registerKernelInsert_preserves fb s dispatch_key kid none hcons hsafe
    | some inferred =>
      dsimp only
      by_cases hd : (findSchemaDifferences schema inferred).isSome = true
      · rw [if_pos hd]
        exact hcons
      · rw [if_neg hd]
        exact registerKernelInsert_preserves fb s dispatch_key kid (some inferred) hcons hsafe

theorem registerKernel_preserves (fb : Fallback) (s : OperatorEntry)
    (dispatch_key : Option Nat) (kid : Nat) (cs inf : Option Nat)
    (hcons : TableConsistent (fb, s))
    (hsafe : ∀ k, dispatch_key = some k → k = DK.CompositeExplicitAutograd →
      getKernelForDispatchKey s.kernels DK.CompositeImplicitAutograd = none) :
    TableConsistent (fb, (registerKernel fb s dispatch_key kid cs inf).2.1) := by
  unfold registerKernel
  cases cs with
  | none => exact registerKernelChecked_preserves fb s dispatch_key kid inf hcons hsafe
  | some c =>
    cases hrec : s.cppSig with
    | some recorded =>
      dsimp only
      by_cases hceq : c ≠ recorded
      · rw [if_pos hceq]
        exact hcons
      · rw [if_neg hceq]
        exact registerKernelChecked_preserves fb s dispatch_key kid inf hcons hsafe
    | none =>
      exact registerKernelChecked_preserves fb { s with cppSig := some c } dispatch_key kid inf
        (tableConsistent_cppSig fb s (some c) hcons) hsafe

theorem deregisterCore_preserves (fb : Fallback) (s s2 : OperatorEntry) (dk tok : Nat)
    (hcons : TableConsistent (fb, s))
    (hsafeC : dk = DK.CompositeExplicitAutograd →
      getKernelForDispatchKey s.kernels DK.CompositeImplicitAutograd = none)
    (hres : (match kmapFind s.kernels dk with
      | none => none
      | some l =>
        some (updateDispatchTable_ fb
          { s with kernels := if (eraseByRegId l tok).isEmpty then kmapErase s.kernels dk
              else kmapSet s.kernels dk (eraseByRegId l tok) } dk)) = some s2) :
    TableConsistent (fb, s2) := by
  revert hres
  cases hf : kmapFind s.kernels dk with
  | none =>
    intro hres
    cases hres
  | some l =>
    intro hres
    injection hres with hres
    subst hres
    intro j hj
    rw [updateDispatchTable_kernels]
    refine preserve_kernel_change fb
      { s with kernels := if (eraseByRegId l tok).isEmpty then kmapErase s.kernels dk
          else kmapSet s.kernels dk (eraseByRegId l tok) }
      s.table s.kernels dk rfl (fun i hi => hcons i hi) ?_ hsafeC j hj
    intro d hd
    dsimp only
    by_cases he : (eraseByRegId l tok).isEmpty = true
    · rw [if_pos he]
      exact kmapFind_kmapErase_ne s.kernels _ d hd
    · rw [if_neg he]
      exact kmapFind_kmapSet_ne s.kernels _ _ d hd

theorem deregisterKernel_preserves (fb : Fallback) (s s2 : OperatorEntry)
    (dispatch_key : Option Nat) (tok : Nat)
    (hcons : TableConsistent (fb, s))
    (hsafe : ∀ k, dispatch_key = some k → k = DK.CompositeExplicitAutograd →
      getKernelForDispatchKey s.kernels DK.CompositeImplicitAutograd = none)
    (hres : deregisterKernel_ fb s dispatch_key tok = some s2) :
    TableConsistent (fb, s2) := by
  cases dispatch_key with
  | some k => exact deregisterCore_preserves fb s s2 k tok hcons (hsafe k rfl) hres
  | none =>
    exact deregisterCore_preserves fb s s2 DK.CompositeImplicitAutograd tok hcons
      (fun h => absurd h (by decide)) hres

/-- Single-step preservation: each mutating call keeps the live table equal
to its from-scratch recomputation, under the `ciaSafe` side condition. -/
theorem stepOp_preserves (st : Fallback × OperatorEntry) (op : DOp)
    (hcons : TableConsistent st) (hsafe : ciaSafe st op) :
    TableConsistent (stepOp st op) := by
  obtain ⟨fb, s⟩ := st
  cases op with
  | reg dk kid cs inf =>
    refine registerKernel_preserves fb s dk kid cs inf hcons ?_
    intro k hk
    cases dk with
    | none => cases hk
    | some k2 =>
      injection hk with hk2
      subst hk2
      exact hsafe
  | dereg dk tok =>
    unfold stepOp
    cases hres : deregisterKernel_ fb s dk tok with
    | none => simpa [hres] using hcons
    | some s2 =>
      have : TableConsistent (fb, s2) := by
        refine deregisterKernel_preserves fb s s2 dk tok hcons ?_ hres
        intro k hk
        cases dk with
        | none => cases hk
        | some k2 =>
          injection hk with hk2
          subst hk2
          exact hsafe
      simpa [hres] using this
  | fallb k v =>
    intro j hj
    unfold stepOp setBackendFallback updateFallback
    dsimp only
    rw [updateDispatchTable_kernels, updateDispatchTable_table]
    by_cases hin : j ∈ refreshList k
    · rw [if_pos ⟨hin, hj⟩]
    · rw [if_neg (fun hand => hin hand.1), hcons j hj]
      have hjk : j ≠ k := by
        intro h
        subst h
        exact hin (mem_refreshList_self j ((hasDispatchTableIndex_iff_mem j).mp hj))
      unfold computeDispatchTableEntry
      rw [computeDispatchTableEntryWithDebug_congr (fun i => if i = k then v else fb i) fb
        s.kernels s.kernels j rfl (fun _ => rfl) (fun _ => rfl) (fun _ => rfl)
        (fun _ _ => ⟨rfl, rfl⟩) (fun _ _ => rfl) (fun _ => rfl)
        (show (if j = k then v else fb j) = fb j by rw [if_neg hjk])]
  | regSchema schema =>
    unfold stepOp registerSchema
    dsimp only
    by_cases hs : s.schema.isSome = true
    · rw [if_pos hs]
      exact hcons
    · rw [if_neg hs]
      cases hd : s.kernels.findSome? (fun kv => kv.2.findSome? (fun j =>
          match j.inferredSchema with
          | some inferred => findSchemaDifferences schema inferred
          | none => none)) with
      | some d => simpa [hd] using hcons
      | none => simpa [hd] using tableConsistent_schema fb s (some schema) hcons

/-- A freshly constructed entry is consistent. -/
theorem mkOperatorEntry_consistent (fb : Fallback) :
    TableConsistent (fb, mkOperatorEntry fb) := by
  intro j hj
  unfold mkOperatorEntry
  rw [updateDispatchTableFull_kernels, updateDispatchTableFull_table _ _ j hj]

/-- **C2** counterexample: the claim as stated is false.  The state reached
from a fresh entry by registering a kernel to `CompositeImplicitAutograd` and
then a kernel to `CompositeExplicitAutograd` has a live `AutogradCPU` slot
still holding the math kernel, while recomputing that slot from scratch
yields the missing marker. -/
theorem c2_counterexample :
    hasDispatchTableIndex DK.AutogradCPU = true ∧
    c2CounterState.2.table DK.AutogradCPU = TableEntry.kern 1 ∧
    computeDispatchTableEntry c2CounterState.1 c2CounterState.2.kernels DK.AutogradCPU =
      TableEntry.missing := by
  refine ⟨by decide, by decide, by decide⟩

/-- **C2** (amended): in every state reachable by registerKernel /
deregisterKernel / updateFallback / registerSchema calls in which no kernel
(de)registration targets `CompositeExplicitAutograd` while a
`CompositeImplicitAutograd` kernel is registered, the live, incrementally
maintained dispatch table equals the table obtained by re-deriving every
slot (all runtime keys and the `Undefined` slot) from scratch with
`computeDispatchTableEntry`. -/
theorem c2_incremental_equals_recompute (st : Fallback × OperatorEntry)
    (h : ReachableUnder ciaSafe st) :
    ∀ j, hasDispatchTableIndex j = true →
      st.2.table j = computeDispatchTableEntry st.1 st.2.kernels j := by
  induction h with
  | init fb => exact mkOperatorEntry_consistent fb
  | step hr hok ih => exact stepOp_preserves _ _ ih hok

theorem c2_incremental_equals_recompute_witness :
    (mkOperatorEntry fbEmpty).table DK.CPU =
      computeDispatchTableEntry fbEmpty (mkOperatorEntry fbEmpty).kernels DK.CPU :=
  c2_incremental_equals_recompute (fbEmpty, mkOperatorEntry fbEmpty)
    (ReachableUnder.init fbEmpty) DK.CPU (by decide)

theorem kmapSet_kmapSet (m : KMap) (k : Nat) (v w : List AnnotatedKernel) :
    kmapSet (kmapSet m k v) k w = kmapSet m k w := by
  induction m with
  | nil => rfl
  | cons kv rest ih =>
    obtain ⟨k1, v1⟩ := kv
    by_cases hk : k1 = k
    · simp [hk]
    · simp [hk, ih]

theorem kmapEmplaceFront_of_find_some (m : KMap) (k : Nat) (a : AnnotatedKernel)
    (l : List AnnotatedKernel) (h : kmapFind m k = some l) :
    kmapEmplaceFront m k a = kmapSet m k (a :: l) := by
  unfold kmapEmplaceFront
  rw [h]

theorem kmapEmplaceFront_of_find_none (m : KMap) (k : Nat) (a : AnnotatedKernel)
    (h : kmapFind m k = none) :
    kmapEmplaceFront m k a = (k, [a]) :: m := by
  unfold kmapEmplaceFront
  rw [h]

/-- Inserting a kernel at the front of a key's list and then erasing exactly
that node restores the kernel map, provided the map holds no empty lists. -/
theorem kernels_restore (m : KMap) (k : Nat) (a : AnnotatedKernel)
    (hWF : ∀ kv ∈ m, kv.2 ≠ ([] : List AnnotatedKernel)) :
    kmapFind (kmapEmplaceFront m k a) k = some (a :: (kmapFind m k).getD []) ∧
    eraseByRegId (a :: (kmapFind m k).getD []) a.regId = (kmapFind m k).getD [] ∧
    (if (((kmapFind m k).getD [] : List AnnotatedKernel)).isEmpty then
        kmapErase (kmapEmplaceFront m k a) k
      else kmapSet (kmapEmplaceFront m k a) k ((kmapFind m k).getD [])) = m := by
  refine ⟨kmapFind_kmapEmplaceFront_self m k a, by simp, ?_⟩
  cases hf : kmapFind m k with
  | none =>
    simp only [hf, Option.getD_none, List.isEmpty_nil, if_true]
    rw [kmapEmplaceFront_of_find_none m k a hf]
    simp
  | some l =>
    have hlne : l ≠ [] := hWF (k, l) (mem_of_kmapFind_eq_some m k l hf)
    have hle : l.isEmpty = false := by
      cases l with
      | nil => exact absurd rfl hlne
      | cons x xs => rfl
    simp only [hf, Option.getD_some, hle, Bool.false_eq_true, if_false]
    rw [kmapEmplaceFront_of_find_some m k a l hf, kmapSet_kmapSet, kmapSet_self m k l hf]

/-! ### The precedence algorithm as the spec states it (claim C1) -/

theorem computeTailEntry_eq_spec (fb : Fallback) (m : KMap) (K : Nat)
    (hK : hasDispatchTableIndex K = true) :
    computeTailEntry fb m K =
      (firstSome [(if isIncludedInAlias K DK.Autograd = true
          then (getKernelForDispatchKey m DK.Autograd).map
            (fun a => (.kern a.kid, "autograd kernel"))
          else none),
        (fb K).map (fun kid => (.kern kid, "backend fallback"))]).getD
        (.missing, "missing") := by
  unfold computeTailEntry
  by_cases g5 : isIncludedInAlias K DK.Autograd = true
  · rw [if_pos g5, if_pos g5]
    cases h5 : getKernelForDispatchKey m DK.Autograd with
    | some a => simp [firstSome]
    | none =>
      simp only [Option.map_none', firstSome]
      rw [if_neg (by rw [hK]; intro hf; cases hf)]
      cases h6 : fb K with
      | some kid => simp [firstSome]
      | none => simp [firstSome]
  · rw [if_neg g5, if_neg g5]
    simp only [firstSome]
    rw [if_neg (by rw [hK]; intro hf; cases hf)]
    cases h6 : fb K with
    | some kid => simp [firstSome]
    | none => simp [firstSome]

/-- **C1** For every runtime dispatch key (and the `Undefined` slot),
`computeDispatchTableEntry` returns the first applicable of the seven rules
in the spec's order — a kernel directly registered to `K`; the
`CompositeExplicitAutogradNonFunctional`, `CompositeExplicitAutograd` and
`CompositeImplicitAutograd` alias kernels (the latter subject to the
`AutogradOther` ambiguity and backend-kernel exceptions); the `Autograd`
alias kernel; the backend fallback; otherwise the missing marker — and the
result depends only on the current kernel map and fallback table (as
key-indexed lookups), never on the order in which registrations were made. -/
theorem c1_precedence_order (fb : Fallback) (m : KMap) (K : Nat)
    (hK : hasDispatchTableIndex K = true) :
    computeDispatchTableEntryWithDebug fb m K = dispatchSpec fb m K ∧
    (∀ fb2 m2, (∀ d, kmapFind m d = kmapFind m2 d) → (∀ i, fb i = fb2 i) →
      computeDispatchTableEntryWithDebug fb m K = computeDispatchTableEntryWithDebug fb2 m2 K) := by
  constructor
  · unfold dispatchSpec precedenceRules computeDispatchTableEntryWithDebug
    cases h1 : getKernelForDispatchKey m K with
    | some a => simp [firstSome]
    | none =>
      simp only [Option.map_none', firstSome]
      cases h2 : (if K = DK.Undefined ∨
          isIncludedInAlias K DK.CompositeExplicitAutogradNonFunctional = true then
          getKernelForDispatchKey m DK.CompositeExplicitAutogradNonFunctional else none) with
      | some a =>
        have e2 : (if K = DK.Undefined ∨
            isIncludedInAlias K DK.CompositeExplicitAutogradNonFunctional = true then
            (getKernelForDispatchKey m DK.CompositeExplicitAutogradNonFunctional).map
              (fun a => ((.kern a.kid, "default backend kernel") : TableEntry × String))
            else none) = some (.kern a.kid, "default backend kernel") := by
          rcases ite_eq_iff.mp h2 with ⟨hg, hv⟩ | ⟨hg, hv⟩
          · rw [if_pos hg, hv]; rfl
          · cases hv
        rw [e2]
        simp [firstSome]
      | none =>
        have e2 : (if K = DK.Undefined ∨
            isIncludedInAlias K DK.CompositeExplicitAutogradNonFunctional = true then
            (getKernelForDispatchKey m DK.CompositeExplicitAutogradNonFunctional).map
              (fun a => ((.kern a.kid, "default backend kernel") : TableEntry × String))
            else none) = none := by
          rcases ite_eq_iff.mp h2 with ⟨hg, hv⟩ | ⟨hg, hv⟩
          · rw [if_pos hg, hv]; rfl
          · rw [if_neg hg]
        rw [e2]
        simp only [firstSome]
        cases h3 : (if K = DK.Undefined ∨
            isIncludedInAlias K DK.CompositeExplicitAutograd = true then
            getKernelForDispatchKey m DK.CompositeExplicitAutograd else none) with
        | some a =>
          have e3 : (if K = DK.Undefined ∨
              isIncludedInAlias K DK.CompositeExplicitAutograd = true then
              (getKernelForDispatchKey m DK.CompositeExplicitAutograd).map
                (fun a => ((.kern a.kid, "default backend kernel") : TableEntry × String))
              else none) = some (.kern a.kid, "default backend kernel") := by
            rcases ite_eq_iff.mp h3 with ⟨hg, hv⟩ | ⟨hg, hv⟩
            · rw [if_pos hg, hv]; rfl
            · cases hv
          rw [e3]
          simp [firstSome]
        | none =>
          have e3 : (if K = DK.Undefined ∨
              isIncludedInAlias K DK.CompositeExplicitAutograd = true then
              (getKernelForDispatchKey m DK.CompositeExplicitAutograd).map
                (fun a => ((.kern a.kid, "default backend kernel") : TableEntry × String))
              else none) = none := by
            rcases ite_eq_iff.mp h3 with ⟨hg, hv⟩ | ⟨hg, hv⟩
            · rw [if_pos hg, hv]; rfl
            · rw [if_neg hg]
          rw [e3]
          simp only [firstSome]
          cases h4 : (if K = DK.Undefined ∨
              isIncludedInAlias K DK.CompositeImplicitAutograd = true then
              getKernelForDispatchKey m DK.CompositeImplicitAutograd else none) with
          | some math_registration =>
            have hg4 : K = DK.Undefined ∨ isIncludedInAlias K DK.CompositeImplicitAutograd = true := by
              rcases ite_eq_iff.mp h4 with ⟨hg, _⟩ | ⟨_, hv⟩
              · exact hg
              · cases hv
            have h4v : getKernelForDispatchKey m DK.CompositeImplicitAutograd =
                some math_registration := by
              rcases ite_eq_iff.mp h4 with ⟨_, hv⟩ | ⟨_, hv⟩
              · exact hv
              · cases hv
            rw [if_pos hg4, h4v]
            dsimp only
            by_cases hamb : K = DK.AutogradOther ∧
                hasKernelForAnyDispatchKey m autogradother_backends = true
            · rw [if_pos hamb, if_pos hamb]
              simp [firstSome]
            · rw [if_neg hamb, if_neg hamb]
              by_cases hbk : (hasKernelForAnyDispatchKey m (getBackendKeySetFromAutograd K) ||
                  hasKernelForDispatchKey m DK.CompositeExplicitAutograd) = false
              · rw [if_pos hbk, if_pos hbk]
                simp [firstSome]
              · rw [if_neg hbk, if_neg hbk]
                simp only [firstSome]
                exact computeTailEntry_eq_spec fb m K hK
          | none =>
            have e4 : (if K = DK.Undefined ∨
                isIncludedInAlias K DK.CompositeImplicitAutograd = true then
                (match getKernelForDispatchKey m DK.CompositeImplicitAutograd with
                 | some math_registration =>
                   if K = DK.AutogradOther ∧
                       hasKernelForAnyDispatchKey m autogradother_backends = true then
                     some ((.ambiguous, "ambiguous autogradother") : TableEntry × String)
                   else if (hasKernelForAnyDispatchKey m (getBackendKeySetFromAutograd K) ||
                       hasKernelForDispatchKey m DK.CompositeExplicitAutograd) = false then
                     some (.kern math_registration.kid, "math kernel")
                   else none
                 | none => none)
                else none) = none := by
              rcases ite_eq_iff.mp h4 with ⟨hg, hv⟩ | ⟨hg, hv⟩
              · rw [if_pos hg, hv]
              · rw [if_neg hg]
            rw [e4]
            simp only [firstSome]
            exact computeTailEntry_eq_spec fb m K hK
  · intro fb2 m2 hm hfb
    have hgk : ∀ d, getKernelForDispatchKey m d = getKernelForDispatchKey m2 d :=
      fun d => getKernelForDispatchKey_congr m m2 d (hm d)
    have hae : ∀ ks, hasKernelForAnyDispatchKey m ks = hasKernelForAnyDispatchKey m2 ks :=
      fun ks => hasKernelForAnyDispatchKey_congr m m2 ks (fun d _ => by rw [hm d])
    refine computeDispatchTableEntryWithDebug_congr fb fb2 m m2 K (hgk K)
      (fun _ => hgk _) (fun _ => hgk _) (fun _ => hgk _) ?_
      (fun _ _ => hae _) (fun _ => hgk _) (hfb K)
    intro _ _
    refine ⟨hae _, ?_⟩
    rw [hasKernelForDispatchKey_eq_isSome, hasKernelForDispatchKey_eq_isSome, hm _]

theorem c1_precedence_order_witness :
    hasDispatchTableIndex DK.CPU = true ∧
    computeDispatchTableEntryWithDebug fbEmpty [] DK.CPU = dispatchSpec fbEmpty [] DK.CPU :=
  ⟨by decide, (c1_precedence_order fbEmpty [] DK.CPU (by decide)).1⟩

/-! ### The success path of `registerKernel` -/

theorem registerKernelChecked_success (fb : Fallback) (s : OperatorEntry)
    (dk : Option Nat) (kid : Nat) (inf : Option Nat)
    (hok : (registerKernelChecked fb s dk kid inf).1 = none) :
    registerKernelChecked fb s dk kid inf = registerKernelInsert fb s dk kid inf := by
  unfold registerKernelChecked at hok ⊢
  cases hs : s.schema with
  | none => rfl
  | some schema =>
    cases hi : inf with
    | none => rfl
    | some inferred =>
      rw [hs, hi] at hok
      dsimp only at hok ⊢
      by_cases hd : (findSchemaDifferences schema inferred).isSome = true
      · rw [if_pos hd] at hok
        cases hok
      · rw [if_neg hd]

theorem registerKernel_success_spec (fb : Fallback) (s : OperatorEntry)
    (dk : Option Nat) (kid : Nat) (cs inf : Option Nat)
    (hok : (registerKernel fb s dk kid cs inf).1 = none) :
    ∃ s0 : OperatorEntry, s0.kernels = s.kernels ∧ s0.table = s.table ∧
      s0.nextId = s.nextId ∧
      registerKernel fb s dk kid cs inf = registerKernelInsert fb s0 dk kid inf := by
  unfold registerKernel at hok ⊢
  cases cs with
  | none => exact ⟨s, rfl, rfl, rfl, registerKernelChecked_success fb s dk kid inf hok⟩
  | some c =>
    cases hrec : s.cppSig with
    | some recorded =>
      rw [hrec] at hok
      dsimp only at hok ⊢
      by_cases hceq : c ≠ recorded
      · rw [if_pos hceq] at hok
        cases hok
      · rw [if_neg hceq] at hok ⊢
        exact ⟨s, rfl, rfl, rfl, registerKernelChecked_success fb s dk kid inf hok⟩
    | none =>
      rw [hrec] at hok
      dsimp only at hok ⊢
      exact ⟨{ s with cppSig := some c }, rfl, rfl, rfl,
        registerKernelChecked_success fb { s with cppSig := some c } dk kid inf hok⟩

theorem getKernelForDispatchKey_emplace_self (m : KMap) (k : Nat) (a : AnnotatedKernel) :
    getKernelForDispatchKey (kmapEmplaceFront m k a) k = some a := by
  unfold getKernelForDispatchKey
  rw [kmapFind_kmapEmplaceFront_self]
  rfl

/-- **C5** Shadow/restore: if `A` is the active (front) kernel for key `K`,
then after a successful `registerKernel` of a kernel `B` to `K`, `B` is the
kernel returned by `getKernelForDispatchKey K`; deregistering `B` through the
returned token makes `A` the active kernel for `K` again. -/
theorem c5_shadow_restore (fb : Fallback) (s : OperatorEntry) (K kid : Nat)
    (cs inf : Option Nat) (A : AnnotatedKernel)
    (hA : getKernelForDispatchKey s.kernels K = some A)
    (hok : (registerKernel fb s (some K) kid cs inf).1 = none) :
    getKernelForDispatchKey (registerKernel fb s (some K) kid cs inf).2.1.kernels K =
      some ⟨kid, inf, s.nextId⟩ ∧
    ∃ s2, deregisterKernel_ fb (registerKernel fb s (some K) kid cs inf).2.1 (some K)
        ((registerKernel fb s (some K) kid cs inf).2.2.getD 0) = some s2 ∧
      getKernelForDispatchKey s2.kernels K = some A := by
  obtain ⟨s0, hk0, ht0, hn0, heq⟩ := registerKernel_success_spec fb s (some K) kid cs inf hok
  rw [heq]
  unfold registerKernelInsert
  dsimp only
  rw [updateDispatchTable_kernels]
  dsimp only
  rw [hk0, hn0]
  obtain ⟨l, hl, hheadl⟩ : ∃ l, kmapFind s.kernels K = some l ∧ l.head? = some A := by
    unfold getKernelForDispatchKey at hA
    cases hf : kmapFind s.kernels K with
    | none => rw [hf] at hA; cases hA
    | some l => rw [hf] at hA; exact ⟨l, rfl, hA⟩
  obtain ⟨t, hlt⟩ : ∃ t, l = A :: t := by
    cases l with
    | nil => cases hheadl
    | cons A2 t =>
      injection hheadl with h2
      exact ⟨t, by rw [h2]⟩
  refine ⟨getKernelForDispatchKey_emplace_self s.kernels K _, ?_⟩
  unfold deregisterKernel_
  dsimp only
  rw [updateDispatchTable_kernels]
  rw [kmapFind_kmapEmplaceFront_self, hl]
  simp only [Option.getD_some]
  rw [hlt]
  simp only [eraseByRegId_cons]
  simp only [if_true]
  have hne : ¬ ((A :: t).isEmpty = true) := by simp [List.isEmpty]
  rw [if_neg hne]
  refine ⟨_, rfl, ?_⟩
  rw [updateDispatchTable_kernels]
  unfold getKernelForDispatchKey
  rw [kmapFind_kmapSet_self _ _ _ (by rw [kmapFind_kmapEmplaceFront_self, hl]; rfl)]
  rfl

theorem c5_shadow_restore_witness :
    (getKernelForDispatchKey [(DK.CPU, [⟨7, none, 0⟩])] DK.CPU = some ⟨7, none, 0⟩) ∧
    (registerKernel fbEmpty
        { kernels := [(DK.CPU, [⟨7, none, 0⟩])], table := fun _ => .missing,
          schema := none, cppSig := none, nextId := 1 }
        (some DK.CPU) 9 none none).1 = none ∧
    getKernelForDispatchKey (registerKernel fbEmpty
        { kernels := [(DK.CPU, [⟨7, none, 0⟩])], table := fun _ => .missing,
          schema := none, cppSig := none, nextId := 1 }
        (some DK.CPU) 9 none none).2.1.kernels DK.CPU = some ⟨9, none, 1⟩ := by
  refine ⟨by decide, by decide, ?_⟩
  exact (c5_shadow_restore fbEmpty
    { kernels := [(DK.CPU, [⟨7, none, 0⟩])], table := fun _ => .missing,
      schema := none, cppSig := none, nextId := 1 }
    DK.CPU 9 none none ⟨7, none, 0⟩ (by decide) (by decide)).1

/-! ### The round trip of register and immediately deregister (claim C6) -/

set_option maxRecDepth 8000 in
/-- **C6** counterexample: the claim as stated is false.  In the reachable
(but stale, cf. C2) state `c2CounterState`, registering one more
`CompositeImplicitAutograd` kernel (token 2) and immediately deregistering it
with that token leaves the `AutogradCPU` slot holding the missing marker,
while before the round trip it held kernel 1: the deregistration's refresh
overwrites the stale slot with its recomputed value. -/
theorem c6_counterexample :
    (registerKernel c2CounterState.1 c2CounterState.2
        (some DK.CompositeImplicitAutograd) 3 none none).2.2 = some 2 ∧
    Option.map (fun s2 => s2.table DK.AutogradCPU)
      (deregisterKernel_ c2CounterState.1
        (registerKernel c2CounterState.1 c2CounterState.2
          (some DK.CompositeImplicitAutograd) 3 none none).2.1
        (some DK.CompositeImplicitAutograd) 2) = some TableEntry.missing ∧
    c2CounterState.2.table DK.AutogradCPU = TableEntry.kern 1 := by
  refine ⟨by decide, by decide, by decide⟩

/-- **C6** (amended): in an operator state whose dispatch table agrees with
full recomputation (the `checkInvariants` consistency) and whose kernel map
holds no empty lists, a successful `registerKernel` followed immediately by
`deregisterKernel_` with the returned token leaves every dispatch-table slot
(each runtime key and the `Undefined` slot) equal to its pre-registration
value. -/
theorem c6_register_deregister_roundtrip (fb : Fallback) (s : OperatorEntry)
    (dk : Option Nat) (kid : Nat) (cs inf : Option Nat)
    (hWF : ∀ kv ∈ s.kernels, kv.2 ≠ ([] : List AnnotatedKernel))
    (hcons : TableConsistent (fb, s))
    (hok : (registerKernel fb s dk kid cs inf).1 = none) :
    ∃ s2, deregisterKernel_ fb (registerKernel fb s dk kid cs inf).2.1 dk
        ((registerKernel fb s dk kid cs inf).2.2.getD 0) = some s2 ∧
      ∀ j, hasDispatchTableIndex j = true → s2.table j = s.table j := by
  obtain ⟨s0, hk0, ht0, hn0, heq⟩ := registerKernel_success_spec fb s dk kid cs inf hok
  rw [heq]
  cases dk with
  | some K =>
    unfold registerKernelInsert deregisterKernel_
    dsimp only
    rw [hk0, hn0]
    simp only [Option.getD_some]
    obtain ⟨hr1, hr2, hr3⟩ := kernels_restore s.kernels K ⟨kid, inf, s.nextId⟩ hWF
    dsimp only at hr2
    rw [updateDispatchTable_kernels]
    dsimp only
    rw [hr1]
    dsimp only
    rw [hr2, hr3]
    refine ⟨_, rfl, ?_⟩
    intro j hj
    rw [updateDispatchTable_table]
    dsimp only
    by_cases hin : j ∈ refreshList K
    · rw [if_pos ⟨hin, hj⟩]
      exact (hcons j hj).symm
    · rw [if_neg (fun hand => hin hand.1)]
      rw [updateDispatchTable_table]
      rw [if_neg (fun hand => hin hand.1)]
      dsimp only
      rw [ht0]
  | none =>
    unfold registerKernelInsert deregisterKernel_
    dsimp only
    rw [hk0, hn0]
    simp only [Option.getD_some]
    obtain ⟨hr1, hr2, hr3⟩ :=
      kernels_restore s.kernels DK.CompositeImplicitAutograd ⟨kid, inf, s.nextId⟩ hWF
    dsimp only at hr2
    rw [updateDispatchTableFull_kernels]
    dsimp only
    rw [hr1]
    dsimp only
    rw [hr2, hr3]
    refine ⟨_, rfl, ?_⟩
    intro j hj
    rw [updateDispatchTable_table]
    dsimp only
    by_cases hin : j ∈ refreshList DK.CompositeImplicitAutograd
    · rw [if_pos ⟨hin, hj⟩]
      exact (hcons j hj).symm
    · rw [if_neg (fun hand => hin hand.1)]
      rw [updateDispatchTableFull_table _ _ j hj]
      dsimp only
      unfold computeDispatchTableEntry
      rw [computeEntry_stable fb s.kernels
        (kmapEmplaceFront s.kernels DK.CompositeImplicitAutograd ⟨kid, inf, s.nextId⟩)
        DK.CompositeImplicitAutograd
        (fun d hd => kmapFind_kmapEmplaceFront_ne s.kernels _ _ d hd)
        (fun h => absurd h (by decide)) j hj hin]
      exact (hcons j hj).symm

theorem c6_register_deregister_roundtrip_witness :
    ∃ s2, deregisterKernel_ fbEmpty
        (registerKernel fbEmpty (mkOperatorEntry fbEmpty) (some DK.CPU) 1 none none).2.1
        (some DK.CPU)
        ((registerKernel fbEmpty (mkOperatorEntry fbEmpty) (some DK.CPU) 1 none none).2.2.getD 0) =
        some s2 ∧
      ∀ j, hasDispatchTableIndex j = true →
        s2.table j = (mkOperatorEntry fbEmpty).table j :=
  c6_register_deregister_roundtrip fbEmpty (mkOperatorEntry fbEmpty) (some DK.CPU) 1 none none
    (by decide) (mkOperatorEntry_consistent fbEmpty) (by decide)

/-! ### The `AutogradOther` ambiguity marker (claim C3) -/

/-- **C3** counterexample: the claim as stated is false.  With a
`CompositeImplicitAutograd` kernel registered and an `autogradother_backends`
backend (`FPGA`) holding a direct kernel, a kernel registered directly to
`AutogradOther` itself still wins: the direct-registration rule precedes the
ambiguity check, so the entry is that direct kernel, not the ambiguous
marker. -/
theorem c3_counterexample :
    (getKernelForDispatchKey
        [(DK.AutogradOther, [⟨5, none, 0⟩]), (DK.CompositeImplicitAutograd, [⟨1, none, 1⟩]),
         (DK.FPGA, [⟨2, none, 2⟩])]
        DK.CompositeImplicitAutograd).isSome = true ∧
    hasKernelForAnyDispatchKey
        [(DK.AutogradOther, [⟨5, none, 0⟩]), (DK.CompositeImplicitAutograd, [⟨1, none, 1⟩]),
         (DK.FPGA, [⟨2, none, 2⟩])]
        autogradother_backends = true ∧
    computeDispatchTableEntryWithDebug fbEmpty
        [(DK.AutogradOther, [⟨5, none, 0⟩]), (DK.CompositeImplicitAutograd, [⟨1, none, 1⟩]),
         (DK.FPGA, [⟨2, none, 2⟩])]
        DK.AutogradOther = (TableEntry.kern 5, "kernel") := by
  refine ⟨by decide, by decide, by decide⟩

/-- **C3** (amended): if a `CompositeImplicitAutograd` kernel is registered,
some backend funneling into `AutogradOther` has a direct kernel, and — the
added proviso — no kernel is registered directly to `AutogradOther` itself,
then the computed entry for `AutogradOther` is the distinguished ambiguous
marker. -/
theorem c3_autogradother_ambiguity (fb : Fallback) (m : KMap)
    (hcia : (getKernelForDispatchKey m DK.CompositeImplicitAutograd).isSome = true)
    (hbk : hasKernelForAnyDispatchKey m autogradother_backends = true)
    (hnodirect : getKernelForDispatchKey m DK.AutogradOther = none) :
    computeDispatchTableEntryWithDebug fb m DK.AutogradOther =
      (TableEntry.ambiguous, "ambiguous autogradother") := by
  obtain ⟨ak, hak⟩ := Option.isSome_iff_exists.mp hcia
  unfold computeDispatchTableEntryWithDebug
  rw [hnodirect]
  dsimp only
  rw [if_neg (show ¬(DK.AutogradOther = DK.Undefined ∨
      isIncludedInAlias DK.AutogradOther DK.CompositeExplicitAutogradNonFunctional = true)
    by decide)]
  dsimp only
  rw [if_neg (show ¬(DK.AutogradOther = DK.Undefined ∨
      isIncludedInAlias DK.AutogradOther DK.CompositeExplicitAutograd = true) by decide)]
  dsimp only
  rw [if_pos (show DK.AutogradOther = DK.Undefined ∨
      isIncludedInAlias DK.AutogradOther DK.CompositeImplicitAutograd = true by decide)]
  rw [hak]
  dsimp only
  rw [if_pos (show DK.AutogradOther = DK.AutogradOther ∧
      hasKernelForAnyDispatchKey m autogradother_backends = true from ⟨rfl, hbk⟩)]

theorem c3_autogradother_ambiguity_witness :
    (getKernelForDispatchKey
        [(DK.CompositeImplicitAutograd, [⟨1, none, 0⟩]), (DK.FPGA, [⟨2, none, 1⟩])]
        DK.CompositeImplicitAutograd).isSome = true ∧
    hasKernelForAnyDispatchKey
        [(DK.CompositeImplicitAutograd, [⟨1, none, 0⟩]), (DK.FPGA, [⟨2, none, 1⟩])]
        autogradother_backends = true ∧
    getKernelForDispatchKey
        [(DK.CompositeImplicitAutograd, [⟨1, none, 0⟩]), (DK.FPGA, [⟨2, none, 1⟩])]
        DK.AutogradOther = none ∧
    computeDispatchTableEntryWithDebug fbEmpty
        [(DK.CompositeImplicitAutograd, [⟨1, none, 0⟩]), (DK.FPGA, [⟨2, none, 1⟩])]
        DK.AutogradOther = (TableEntry.ambiguous, "ambiguous autogradother") :=
  ⟨by decide, by decide, by decide,
    c3_autogradother_ambiguity fbEmpty
      [(DK.CompositeImplicitAutograd, [⟨1, none, 0⟩]), (DK.FPGA, [⟨2, none, 1⟩])]
      (by decide) (by decide) (by decide)⟩

/-! ### When the implicit composite is skipped (claim C4) -/

theorem computeTailEntry_snd_ne_math (fb : Fallback) (m : KMap) (j : Nat) :
    (computeTailEntry fb m j).2 ≠ "math kernel" := by
  unfold computeTailEntry
  cases hag : (if isIncludedInAlias j DK.Autograd = true then
      getKernelForDispatchKey m DK.Autograd else none) with
  | some a => simp
  | none =>
    dsimp only
    by_cases hd : hasDispatchTableIndex j = false
    · rw [if_pos hd]; simp
    · rw [if_neg hd]
      cases fb j <;> simp

/-- **C4** counterexample: the claim as stated is false on both of its
triggers.  (a) A `CompositeExplicitAutogradNonFunctional` (rule 2) kernel is
registered, yet at `AutogradCPU` the implicit composite is still chosen: the
`has_backend_kernel` check reads only `CompositeExplicitAutograd`, not the
non-functional alias.  (b) The backend of `CPU` has a direct `SparseCPU`
kernel, yet at `CPU` the implicit composite is still chosen: the backend
column is consulted only at autograd keys (`getBackendKeySetFromAutograd` is
empty elsewhere). -/
theorem c4_counterexample :
    hasKernelForDispatchKey
        [(DK.CompositeExplicitAutogradNonFunctional, [⟨1, none, 0⟩]),
         (DK.CompositeImplicitAutograd, [⟨2, none, 1⟩])]
        DK.CompositeExplicitAutogradNonFunctional = true ∧
    (computeDispatchTableEntryWithDebug fbEmpty
        [(DK.CompositeExplicitAutogradNonFunctional, [⟨1, none, 0⟩]),
         (DK.CompositeImplicitAutograd, [⟨2, none, 1⟩])]
        DK.AutogradCPU).2 = "math kernel" ∧
    hasKernelForDispatchKey
        [(DK.SparseCPU, [⟨3, none, 0⟩]), (DK.CompositeImplicitAutograd, [⟨4, none, 1⟩])]
        DK.SparseCPU = true ∧
    (computeDispatchTableEntryWithDebug fbEmpty
        [(DK.SparseCPU, [⟨3, none, 0⟩]), (DK.CompositeImplicitAutograd, [⟨4, none, 1⟩])]
        DK.CPU).2 = "math kernel" := by
  refine ⟨by decide, by decide, by decide, by decide⟩

/-- **C4** (amended): the `CompositeImplicitAutograd` kernel is skipped (the
computed entry is never attributed to the math kernel) exactly under the
condition the code tests: some key of `getBackendKeySetFromAutograd K` — the
backend compute column of an autograd key `K`, empty for other keys — holds a
kernel, or a `CompositeExplicitAutograd` kernel is registered. -/
theorem c4_composite_skipped (fb : Fallback) (m : KMap) (K : Nat)
    (hbk : (hasKernelForAnyDispatchKey m (getBackendKeySetFromAutograd K) ||
            hasKernelForDispatchKey m DK.CompositeExplicitAutograd) = true) :
    (computeDispatchTableEntryWithDebug fb m K).2 ≠ "math kernel" := by
  unfold computeDispatchTableEntryWithDebug
  cases h1 : getKernelForDispatchKey m K with
  | some d => simp
  | none =>
    dsimp only
    cases h2 : (if K = DK.Undefined ∨
        isIncludedInAlias K DK.CompositeExplicitAutogradNonFunctional = true then
        getKernelForDispatchKey m DK.CompositeExplicitAutogradNonFunctional else none) with
    | some d => simp
    | none =>
      dsimp only
      cases h3 : (if K = DK.Undefined ∨
          isIncludedInAlias K DK.CompositeExplicitAutograd = true then
          getKernelForDispatchKey m DK.CompositeExplicitAutograd else none) with
      | some d => simp
      | none =>
        dsimp only
        cases h4 : (if K = DK.Undefined ∨
            isIncludedInAlias K DK.CompositeImplicitAutograd = true then
            getKernelForDispatchKey m DK.CompositeImplicitAutograd else none) with
        | none => exact computeTailEntry_snd_ne_math fb m K
        | some mr =>
          dsimp only
          by_cases h5 : K = DK.AutogradOther ∧
              hasKernelForAnyDispatchKey m autogradother_backends = true
          · rw [if_pos h5]; simp
          · rw [if_neg h5, hbk]
            rw [if_neg (show ¬(true = false) by simp)]
            exact computeTailEntry_snd_ne_math fb m K

theorem c4_composite_skipped_witness :
    (hasKernelForAnyDispatchKey
        [(DK.CompositeExplicitAutograd, [⟨1, none, 0⟩]),
         (DK.CompositeImplicitAutograd, [⟨2, none, 1⟩])]
        (getBackendKeySetFromAutograd DK.CPU) ||
     hasKernelForDispatchKey
        [(DK.CompositeExplicitAutograd, [⟨1, none, 0⟩]),
         (DK.CompositeImplicitAutograd, [⟨2, none, 1⟩])]
        DK.CompositeExplicitAutograd) = true ∧
    (computeDispatchTableEntryWithDebug fbEmpty
        [(DK.CompositeExplicitAutograd, [⟨1, none, 0⟩]),
         (DK.CompositeImplicitAutograd, [⟨2, none, 1⟩])]
        DK.CPU).2 ≠ "math kernel" :=
  ⟨by decide,
    c4_composite_skipped fbEmpty
      [(DK.CompositeExplicitAutograd, [⟨1, none, 0⟩]),
       (DK.CompositeImplicitAutograd, [⟨2, none, 1⟩])]
      DK.CPU (by decide)⟩

/-! ### Schema registration pre-checks (claim C7) -/

/-- **C7** `registerSchema` checks everything before mutating: with a schema
already registered it fails with the already-registered error and returns the
state untouched; with no schema registered it fails with the schema-mismatch
error exactly when some registered kernel carries an inferred schema
different from the new one; and in every failing case the returned state is
the input state. -/
theorem c7_schema_checks (s : OperatorEntry) (sc : Nat) :
    (s.schema.isSome = true →
      registerSchema s sc = (some RegistrationError.schemaAlreadyRegistered, s)) ∧
    (s.schema = none →
      ((registerSchema s sc).1 = some RegistrationError.schemaMismatch ↔
        ∃ kv ∈ s.kernels, ∃ a ∈ kv.2, ∃ i, a.inferredSchema = some i ∧ i ≠ sc)) ∧
    ((registerSchema s sc).1 ≠ none → (registerSchema s sc).2 = s) := by
  refine ⟨?_, ?_, ?_⟩
  · intro h
    unfold registerSchema
    rw [if_pos h]
  · intro h
    unfold registerSchema
    rw [if_neg (show ¬(s.schema.isSome = true) by rw [h]; simp)]
    split
    case _ d hf =>
      dsimp only
      constructor
      · intro _
        obtain ⟨kv, hkv, hFkv⟩ := List.exists_of_findSome?_eq_some hf
        obtain ⟨a, ha, hFa⟩ := List.exists_of_findSome?_eq_some hFkv
        cases his : a.inferredSchema with
        | none => rw [his] at hFa; exact absurd hFa (by simp)
        | some i =>
          rw [his] at hFa
          refine ⟨kv, hkv, a, ha, i, his, ?_⟩
          intro hie
          rw [hie] at hFa
          dsimp only at hFa
          unfold findSchemaDifferences at hFa
          rw [if_pos rfl] at hFa
          exact absurd hFa (by simp)
      · intro _; rfl
    case _ hf =>
      dsimp only
      constructor
      · intro hc; exact absurd hc (by simp)
      · rintro ⟨kv, hkv, a, ha, i, his, hne⟩
        have h1 := (List.findSome?_eq_none_iff.mp hf) kv hkv
        have h2 := (List.findSome?_eq_none_iff.mp h1) a ha
        rw [his] at h2
        dsimp only at h2
        unfold findSchemaDifferences at h2
        rw [if_neg (fun hh : sc = i => hne hh.symm)] at h2
        exact absurd h2 (by simp)
  · intro h
    unfold registerSchema at h ⊢
    by_cases hs : s.schema.isSome = true
    · rw [if_pos hs]
    · rw [if_neg hs] at h ⊢
      split
      case _ d hf => rfl
      case _ hf => rw [hf] at h; exact absurd rfl h

theorem c7_schema_checks_witness :
    registerSchema
        { kernels := [], table := fun _ => TableEntry.missing,
          schema := some 3, cppSig := none, nextId := 0 } 7 =
      (some RegistrationError.schemaAlreadyRegistered,
        { kernels := [], table := fun _ => TableEntry.missing,
          schema := some 3, cppSig := none, nextId := 0 }) :=
  (c7_schema_checks
    { kernels := [], table := fun _ => TableEntry.missing,
      schema := some 3, cppSig := none, nextId := 0 } 7).1 rfl

/-! ### Persistence of the recorded C++ signature (claim C9) -/

/-- **C9** the recorded C++ signature outlives the kernels: deregistering any
kernel leaves `cppSig` untouched, and a later registration carrying a
signature different from the recorded one fails with the signature-mismatch
error, without mutating the state and regardless of which kernels remain
registered. -/
theorem c9_signature_persistence (fb : Fallback) (s : OperatorEntry) (dk1 dk2 : Option Nat)
    (tok kid cs rec : Nat) (inf : Option Nat) (hrec : s.cppSig = some rec) :
    (∀ s2, deregisterKernel_ fb s dk1 tok = some s2 → s2.cppSig = some rec) ∧
    (cs ≠ rec →
      registerKernel fb s dk2 kid (some cs) inf =
        (some RegistrationError.signatureMismatch, s, none)) := by
  constructor
  · intro s2 h
    unfold deregisterKernel_ at h
    cases dk1 with
    | none =>
      dsimp only at h
      split at h
      case _ hf => exact absurd h (by simp)
      case _ l hf =>
        rw [Option.some_inj] at h
        rw [← h, updateDispatchTable_cppSig]
        exact hrec
    | some k =>
      dsimp only at h
      split at h
      case _ hf => exact absurd h (by simp)
      case _ l hf =>
        rw [Option.some_inj] at h
        rw [← h, updateDispatchTable_cppSig]
        exact hrec
  · intro hcs
    unfold registerKernel
    rw [hrec]
    dsimp only
    rw [if_pos hcs]

theorem c9_signature_persistence_witness :
    registerKernel fbEmpty
        { kernels := [(DK.CPU, [⟨0, none, 0⟩])], table := fun _ => TableEntry.missing,
          schema := none, cppSig := some 1, nextId := 1 }
        (some DK.CPU) 5 (some 2) none =
      (some RegistrationError.signatureMismatch,
        { kernels := [(DK.CPU, [⟨0, none, 0⟩])], table := fun _ => TableEntry.missing,
          schema := none, cppSig := some 1, nextId := 1 }, none) :=
  (c9_signature_persistence fbEmpty
    { kernels := [(DK.CPU, [⟨0, none, 0⟩])], table := fun _ => TableEntry.missing,
      schema := none, cppSig := some 1, nextId := 1 }
    (some DK.CPU) (some DK.CPU) 0 5 2 1 none rfl).2 (by decide)

/-! ### The kernel-map shape invariant (claim C10) -/

theorem mem_kmapSet (m : KMap) (k : Nat) (v : List AnnotatedKernel) :
    ∀ kv ∈ kmapSet m k v, (kv.1 = k ∧ kv.2 = v) ∨ kv ∈ m := by
  induction m with
  | nil => intro kv hkv; cases hkv
  | cons hd rest ih =>
    obtain ⟨k1, v1⟩ := hd
    intro kv hkv
    by_cases hk : k1 = k
    · rw [kmapSet_cons, if_pos hk] at hkv
      rcases List.mem_cons.mp hkv with h | h
      · exact Or.inl (by rw [h]; exact ⟨rfl, rfl⟩)
      · exact Or.inr (List.mem_cons_of_mem _ h)
    · rw [kmapSet_cons, if_neg hk] at hkv
      rcases List.mem_cons.mp hkv with h | h
      · exact Or.inr (h ▸ List.mem_cons_self _ _)
      · rcases ih kv h with h2 | h2
        · exact Or.inl h2
        · exact Or.inr (List.mem_cons_of_mem _ h2)

theorem mem_kmapErase (m : KMap) (k : Nat) :
    ∀ kv ∈ kmapErase m k, kv ∈ m := by
  induction m with
  | nil => intro kv hkv; cases hkv
  | cons hd rest ih =>
    obtain ⟨k1, v1⟩ := hd
    intro kv hkv
    by_cases hk : k1 = k
    · rw [kmapErase_cons, if_pos hk] at hkv
      exact List.mem_cons_of_mem _ hkv
    · rw [kmapErase_cons, if_neg hk] at hkv
      rcases List.mem_cons.mp hkv with h | h
      · exact h ▸ List.mem_cons_self _ _
      · exact List.mem_cons_of_mem _ (ih kv h)

theorem mem_kmapEmplaceFront (m : KMap) (k : Nat) (a : AnnotatedKernel) :
    ∀ kv ∈ kmapEmplaceFront m k a,
      (kv.1 = k ∧ kv.2 ≠ ([] : List AnnotatedKernel)) ∨ kv ∈ m := by
  intro kv hkv
  unfold kmapEmplaceFront at hkv
  cases hf : kmapFind m k with
  | none =>
    rw [hf] at hkv
    rcases List.mem_cons.mp hkv with h | h
    · exact Or.inl (by rw [h]; exact ⟨rfl, List.cons_ne_nil _ _⟩)
    · exact Or.inr h
  | some l =>
    rw [hf] at hkv
    rcases mem_kmapSet m k (a :: l) kv hkv with ⟨h1, h2⟩ | h
    · exact Or.inl ⟨h1, by rw [h2]; exact List.cons_ne_nil _ _⟩
    · exact Or.inr h

theorem kmapFind_eq_none_of_forall (m : KMap) (k : Nat)
    (h : ∀ kv ∈ m, kv.1 ≠ k) : kmapFind m k = none := by
  induction m with
  | nil => rfl
  | cons hd rest ih =>
    rw [kmapFind_cons, if_neg (h hd (List.mem_cons_self _ _))]
    exact ih (fun kv hkv => h kv (List.mem_cons_of_mem _ hkv))

theorem KernelMapWF_emplace (m : KMap) (k : Nat) (a : AnnotatedKernel)
    (hk : k ≠ DK.Undefined) (hwf : KernelMapWF m) :
    KernelMapWF (kmapEmplaceFront m k a) := by
  intro kv hkv
  rcases mem_kmapEmplaceFront m k a kv hkv with ⟨h1, h2⟩ | h
  · exact ⟨h1 ▸ hk, h2⟩
  · exact hwf kv h

theorem registerKernelInsert_kernels (fb : Fallback) (s : OperatorEntry)
    (dk : Option Nat) (kid : Nat) (inf : Option Nat) :
    (registerKernelInsert fb s dk kid inf).2.1.kernels =
      kmapEmplaceFront s.kernels (dk.getD DK.CompositeImplicitAutograd)
        ⟨kid, inf, s.nextId⟩ := by
  unfold registerKernelInsert
  cases dk with
  | none =>
    dsimp only
    rw [updateDispatchTableFull_kernels]
    rfl
  | some k =>
    dsimp only
    rw [updateDispatchTable_kernels]
    rfl

theorem registerKernelChecked_wf (fb : Fallback) (s : OperatorEntry)
    (dk : Option Nat) (kid : Nat) (inf : Option Nat)
    (hdk : dk ≠ some DK.Undefined) (hwf : KernelMapWF s.kernels) :
    KernelMapWF (registerKernelChecked fb s dk kid inf).2.1.kernels := by
  have hins : ∀ j : Option Nat,
      KernelMapWF (registerKernelInsert fb s dk kid j).2.1.kernels := by
    intro j
    rw [registerKernelInsert_kernels]
    refine KernelMapWF_emplace _ _ _ ?_ hwf
    cases dk with
    | none => exact (by decide : DK.CompositeImplicitAutograd ≠ DK.Undefined)
    | some k => exact fun hk0 => hdk (by rw [Option.getD_some] at hk0; rw [hk0])
  unfold registerKernelChecked
  cases hs : s.schema with
  | none => exact hins inf
  | some schema =>
    cases hi : inf with
    | none => exact hins none
    | some inferred =>
      dsimp only
      by_cases hd : (findSchemaDifferences schema inferred).isSome = true
      · rw [if_pos hd]
        exact hwf
      · rw [if_neg hd]
        exact hins (some inferred)

theorem registerKernel_wf (fb : Fallback) (s : OperatorEntry)
    (dk : Option Nat) (kid : Nat) (cs inf : Option Nat)
    (hdk : dk ≠ some DK.Undefined) (hwf : KernelMapWF s.kernels) :
    KernelMapWF (registerKernel fb s dk kid cs inf).2.1.kernels := by
  unfold registerKernel
  cases cs with
  | none => exact registerKernelChecked_wf fb s dk kid inf hdk hwf
  | some c =>
    cases hrec : s.cppSig with
    | some recorded =>
      dsimp only
      by_cases hceq : c ≠ recorded
      · rw [if_pos hceq]
        exact hwf
      · rw [if_neg hceq]
        exact registerKernelChecked_wf fb s dk kid inf hdk hwf
    | none =>
      exact registerKernelChecked_wf fb { s with cppSig := some c } dk kid inf hdk hwf

theorem registerSchema_kernels (s : OperatorEntry) (sc : Nat) :
    (registerSchema s sc).2.kernels = s.kernels := by
  unfold registerSchema
  by_cases hs : s.schema.isSome = true
  · rw [if_pos hs]
  · rw [if_neg hs]
    split
    case _ d hf => rfl
    case _ hf => rfl

theorem deregisterKernel_wf (fb : Fallback) (s : OperatorEntry)
    (dk : Option Nat) (tok : Nat) (hwf : KernelMapWF s.kernels) :
    ∀ s2, deregisterKernel_ fb s dk tok = some s2 → KernelMapWF s2.kernels := by
  intro s2 h
  unfold deregisterKernel_ at h
  cases dk with
  | none =>
    dsimp only at h
    split at h
    case _ hf => exact absurd h (by simp)
    case _ l hf =>
      rw [Option.some_inj] at h
      rw [← h, updateDispatchTable_kernels]
      dsimp only
      by_cases he : (eraseByRegId l tok).isEmpty = true
      · rw [if_pos he]
        exact fun kv hkv => hwf kv (mem_kmapErase _ _ kv hkv)
      · rw [if_neg he]
        intro kv hkv
        rcases mem_kmapSet _ _ _ kv hkv with ⟨h1, h2⟩ | hm
        · refine ⟨h1 ▸ (by decide : DK.CompositeImplicitAutograd ≠ DK.Undefined), ?_⟩
          rw [h2]
          intro hnil
          rw [hnil] at he
          exact he rfl
        · exact hwf kv hm
  | some k =>
    dsimp only at h
    split at h
    case _ hf => exact absurd h (by simp)
    case _ l hf =>
      have hk0 : k ≠ DK.Undefined := by
        intro hk
        rw [hk] at hf
        rw [kmapFind_eq_none_of_forall s.kernels DK.Undefined
          (fun kv hkv => (hwf kv hkv).1)] at hf
        cases hf
      rw [Option.some_inj] at h
      rw [← h, updateDispatchTable_kernels]
      dsimp only
      by_cases he : (eraseByRegId l tok).isEmpty = true
      · rw [if_pos he]
        exact fun kv hkv => hwf kv (mem_kmapErase _ _ kv hkv)
      · rw [if_neg he]
        intro kv hkv
        rcases mem_kmapSet _ _ _ kv hkv with ⟨h1, h2⟩ | hm
        · refine ⟨h1 ▸ hk0, ?_⟩
          rw [h2]
          intro hnil
          rw [hnil] at he
          exact he rfl
        · exact hwf kv hm

theorem stepOp_wf (st : Fallback × OperatorEntry) (op : DOp)
    (hok : noExplicitUndefined st op) (hwf : KernelMapWF st.2.kernels) :
    KernelMapWF (stepOp st op).2.kernels := by
  cases op with
  | reg dk kid cs inf =>
    unfold stepOp
    exact registerKernel_wf st.1 st.2 dk kid cs inf hok hwf
  | dereg dk tok =>
    unfold stepOp
    dsimp only
    cases hd : deregisterKernel_ st.1 st.2 dk tok with
    | none => exact hwf
    | some s2 => exact deregisterKernel_wf st.1 st.2 dk tok hwf s2 hd
  | fallb k v =>
    unfold stepOp updateFallback
    dsimp only
    rw [updateDispatchTable_kernels]
    exact hwf
  | regSchema sc =>
    unfold stepOp
    dsimp only
    rw [registerSchema_kernels]
    exact hwf

/-- **C10** counterexample: the claim as stated is false.  `registerKernel`
accepts `DispatchKey::Undefined` as an explicit key (nothing in
`OperatorEntry.cpp` rejects it; only the ABSENT key is redirected to
`CompositeImplicitAutograd`), and such a registration succeeds, storing the
kernel in the map under the `Undefined` key. -/
theorem c10_counterexample :
    (registerKernel fbEmpty (mkOperatorEntry fbEmpty)
        (some DK.Undefined) 1 none none).1 = none ∧
    kmapFind (stepOp (fbEmpty, mkOperatorEntry fbEmpty)
        (DOp.reg (some DK.Undefined) 1 none none)).2.kernels DK.Undefined =
      some [⟨1, none, 0⟩] := by
  refine ⟨by decide, by decide⟩

/-- **C10** (amended): in every state reachable by `registerKernel` /
`deregisterKernel_` (and fallback or schema updates) in which no registration
passes the `Undefined` key explicitly, the kernel map holds no entry under
`Undefined` and maps no key to an empty list; moreover a registration with
the absent key always stores its kernel under `CompositeImplicitAutograd`. -/
theorem c10_map_invariant (st : Fallback × OperatorEntry)
    (h : ReachableUnder noExplicitUndefined st) :
    KernelMapWF st.2.kernels ∧
    ∀ kid inf, (kmapFind (registerKernelInsert st.1 st.2 none kid inf).2.1.kernels
      DK.CompositeImplicitAutograd).isSome = true := by
  refine ⟨?_, ?_⟩
  · induction h with
    | init fb =>
      intro kv hkv
      rw [show (mkOperatorEntry fb).kernels = ([] : KMap) from
        updateDispatchTableFull_kernels fb _] at hkv
      cases hkv
    | step hr hok ih => exact stepOp_wf _ _ hok ih
  · intro kid inf
    rw [registerKernelInsert_kernels]
    rw [Option.getD_none]
    rw [kmapFind_kmapEmplaceFront_self]
    rfl

theorem c10_map_invariant_witness :
    kmapFind (stepOp (fbEmpty, mkOperatorEntry fbEmpty)
      (DOp.reg none 1 none none)).2.kernels DK.Undefined = none := by
  have h := c10_map_invariant
    (stepOp (fbEmpty, mkOperatorEntry fbEmpty) (DOp.reg none 1 none none))
    (ReachableUnder.step (ReachableUnder.init fbEmpty) (by simp [noExplicitUndefined]))
  exact kmapFind_eq_none_of_forall _ _ (fun kv hkv => (h.1 kv hkv).1)

end PTD
